import Mathlib

/-!
Verification of the Totem backup pipeline.

The repository ships two implementations of the same backup pipeline: a
TypeScript one (src/backup.ts together with src/utils.ts and
src/index.ts) and a Go one (internal/backup/backup.go together with
main.go).  The definitions below are a shallow embedding of both.

Pure helpers (formatBytes, formatDuration, the shader classification, the
metadata inspector) are translated directly, with machine floating point
replaced by exact integer or rational arithmetic where the source's
behaviour only depends on exactly representable values; the divergence
points this introduces are noted at each definition.

Filesystem access is modelled by a world record holding the result of
every filesystem primitive the code calls during one run: an existence
boolean for each stat/pathExists probe and an Except value for each
fallible read, copy or write.  The writes a run performs are recorded in
an Action trace, so that control-flow claims (a later step still runs, the
manifest is still written, the uncompressed directory was or was not
removed) become statements about the trace.
-/

namespace Totem

/-- An immediate directory entry, as returned by readdir / os.ReadDir:
a name plus whether the entry is a directory. -/
structure DirEntry where
  name : String
  isDir : Bool
  deriving Repr, DecidableEq

/-- Boolean success test for an Except value (err == nil in Go, no thrown
exception in TypeScript). -/
def exOk {α : Type} : Except String α → Bool
  | .ok _ => true
  | .error _ => false

/-- The five user toggles of a backup run (tui.Config booleans in Go,
BackupOptions in TypeScript). -/
structure BackupOptions where
  zipOutput : Bool
  includeSaves : Bool
  includeXaero : Bool
  includeDH : Bool
  openWhenDone : Bool
  deriving Repr, DecidableEq

/-- Per-category statistics of one run (Stats in backup.go, the stats
record in backup.ts). -/
structure Stats where
  screenshotsCopied : Nat := 0
  modsListed : Nat := 0
  shadersListed : Nat := 0
  shaderConfigsCopied : Nat := 0
  resourcepacksListed : Nat := 0
  savesCopied : Nat := 0
  xaeroCopied : Nat := 0
  distantHorizonsCopied : Nat := 0
  deriving Repr, DecidableEq

/-- Observable filesystem effects of one run, recorded in program order. -/
inductive Action where
  | step (k : Nat)
  | mkdirOut
  | mkdirSub (name : String)
  | copiedTree (category : String)
  | wroteFile (name : String)
  | copiedFile (name : String)
  | wroteInfo
  | zipped
  | removedDir
  | openedFolder (path : String)
  deriving Repr, DecidableEq

/-! ## Byte formatting (claim C8)

backup.go formatBytes divides a float64 copy of the byte count by 1024
while it stays at least 1024 and units remain; division of a float by
1024 is exact (only the exponent changes), so the loop's iteration count
and final value are a function of the integer byte count alone, modelled
here by goUnitIdx and exact rational rendering. -/

/-- Unit-selection loop of backup.go formatBytes: divide by 1024 while the
running value is at least 1024 and fuel (the number of units above B, 4)
remains; returns the number of divisions taken. -/
def goUnitIdx : Nat → Nat → Nat
  | _, 0 => 0
  | b, fuel + 1 => if 1024 ≤ b then goUnitIdx (b / 1024) fuel + 1 else 0

/-- Round 10 * num / den to the nearest integer, ties to even: the
rounding Go's fmt applies for the %.1f verb on an exactly represented
quotient. -/
def roundTenthsEven (num den : Nat) : Nat :=
  let q := 10 * num
  let w := q / den
  let r := q % den
  if 2 * r < den then w
  else if den < 2 * r then w + 1
  else if w % 2 = 0 then w else w + 1

/-- Round 10 * num / den to the nearest integer, halves away from zero:
the rounding JavaScript toFixed(1) applies on an exactly represented
nonnegative quotient. -/
def roundTenthsUp (num den : Nat) : Nat :=
  (20 * num + den) / (2 * den)

/-- Render a tenths count t as a decimal string with one decimal place. -/
def tenthsString (t : Nat) : String :=
  toString (t / 10) ++ "." ++ toString (t % 10)

/-- Fixed unit ladder shared by both implementations. -/
def byteUnits : List String := ["B", "KB", "MB", "GB", "TB"]

namespace Go

/-- backup.go formatBytes. -/
def formatBytes (bytes : Nat) : String :=
  if bytes = 0 then "0 B"
  else
    let i := goUnitIdx bytes 4
    tenthsString (roundTenthsEven bytes (1024 ^ i)) ++ " " ++ byteUnits.getD i "TB"

end Go

/-- Floor logarithm base 1024 with explicit fuel, the exact-real value of
Math.floor(Math.log bytes / Math.log 1024) in utils.ts formatBytes; IEEE
deviations of Math.log at power boundaries are not modelled. -/
def tsLogIdx : Nat → Nat → Nat
  | _, 0 => 0
  | n, fuel + 1 => if n < 1024 then 0 else tsLogIdx (n / 1024) fuel + 1

namespace TS

/-- utils.ts formatBytes, under exact-real semantics for Math.log and the
division.  Unlike the Go loop the index is not capped at 4, only the unit
label falls back to "TB" (the units[i] ?? "TB" access). -/
def formatBytes (bytes : Nat) : String :=
  if bytes = 0 then "0 B"
  else
    let i := tsLogIdx bytes bytes
    tenthsString (roundTenthsUp bytes (1024 ^ i)) ++ " " ++ byteUnits.getD i "TB"

end TS

/-- Largest index i of the B/KB/MB/GB/TB ladder (divisor 1024) such that
the byte count is at least 1024 ^ i, written with literal thresholds; this
is the claim's description of the unit choice. -/
def ladderIdx (n : Nat) : Nat :=
  if 1099511627776 ≤ n then 4
  else if 1073741824 ≤ n then 3
  else if 1048576 ≤ n then 2
  else if 1024 ≤ n then 1
  else 0

/-! ## Recursive directory copy (claim C9)

A filesystem subtree is a tree of named entries; a file carries its
content as a byte list. -/

/-- A filesystem subtree: a file with its bytes, or a directory with its
named immediate entries. -/
inductive FsNode where
  | file (content : List Nat) : FsNode
  | dir (entries : List (String × FsNode)) : FsNode

mutual

/-- utils.ts copyDirInternal (the same traversal as backup.go copyDir):
mirror the tree under the destination, creating directories and copying
file contents, and count the files copied.  Returns the subtree created
at the destination together with the count. -/
def copyDir : FsNode → FsNode × Nat
  | .file c => (.file c, 1)
  | .dir es =>
      let r := copyEntries es
      (.dir r.1, r.2)

/-- Loop body of copyDirInternal over the immediate entries. -/
def copyEntries : List (String × FsNode) → List (String × FsNode) × Nat
  | [] => ([], 0)
  | (n, t) :: rest =>
      let c := copyDir t
      let r := copyEntries rest
      ((n, c.1) :: r.1, c.2 + r.2)

end

mutual

/-- utils.ts countFiles: recursive file count of a subtree (directories
are not counted). -/
def countFiles : FsNode → Nat
  | .file _ => 1
  | .dir es => countFilesEntries es

/-- Loop body of countFiles over the immediate entries. -/
def countFilesEntries : List (String × FsNode) → Nat
  | [] => 0
  | (_, t) :: rest => countFiles t + countFilesEntries rest

end

mutual

/-- Relative paths of all files of a subtree, used to state the mirroring
property of the copy. -/
def filePaths : FsNode → List (List String)
  | .file _ => [[]]
  | .dir es => filePathsEntries es

/-- Loop body of filePaths over the immediate entries. -/
def filePathsEntries : List (String × FsNode) → List (List String)
  | [] => []
  | (n, t) :: rest => (filePaths t).map (fun p => n :: p) ++ filePathsEntries rest

end

/-! ## Duration formatting (claim C10) -/

/-- JavaScript Math.round: round half toward positive infinity. -/
def jsRound (q : ℚ) : ℤ := ⌊q + 1 / 2⌋

/-- JavaScript toFixed(1) on a nonnegative finite value: one decimal
place, halves away from zero. -/
def toFixedOne (q : ℚ) : String :=
  let t : ℤ := ⌊q * 10 + 1 / 2⌋
  toString (t / 10) ++ "." ++ toString (t % 10)

namespace TS

/-- utils.ts formatDuration, with JavaScript numbers modelled as exact
rationals; for positive operands the JS remainder operator equals
a - b * ⌊a / b⌋. -/
def formatDuration (seconds : ℚ) : String :=
  if seconds < 60 then toFixedOne seconds ++ " seconds"
  else
    let mins : ℤ := ⌊seconds / 60⌋
    let secs : ℤ := jsRound (seconds - 60 * ⌊seconds / 60⌋)
    toString mins ++ "m " ++ toString secs ++ "s"

end TS

/-! ## String primitives

The string operations the source uses (endsWith, startsWith, includes,
Contains, toLowerCase, trim) are embedded as character-list functions
with the same semantics, so that they evaluate on concrete inputs. -/

/-- Suffix test: the semantics of JavaScript String.endsWith and Go
strings.HasSuffix. -/
def endsWithStr (s pat : String) : Bool :=
  List.isSuffixOf pat.data s.data

/-- Prefix test: the semantics of Go strings.HasPrefix. -/
def startsWithStr (s pat : String) : Bool :=
  List.isPrefixOf pat.data s.data

/-- Occurrence test for a character sequence. -/
def containsSeq (pat : List Char) : List Char → Bool
  | [] => List.isPrefixOf pat ([] : List Char)
  | c :: rest => List.isPrefixOf pat (c :: rest) || containsSeq pat rest

/-- Substring test: the semantics of JavaScript String.includes and Go
strings.Contains. -/
def hasSub (s pat : String) : Bool :=
  containsSeq pat.data s.data

/-- Lower-casing: the semantics of toLowerCase / strings.ToLower on the
ASCII names involved. -/
def lowerStr (s : String) : String :=
  String.mk (s.data.map Char.toLower)

/-- Whitespace trimming of a character list on both ends. -/
def trimChars (l : List Char) : List Char :=
  ((l.dropWhile Char.isWhitespace).reverse.dropWhile Char.isWhitespace).reverse

/-- Whitespace trimming: the semantics of String.prototype.trim and
strings.TrimSpace. -/
def trimStr (s : String) : String :=
  String.mk (trimChars s.data)

/-- Characters after the first occurrence of pat, when pat occurs. -/
def afterFirst (pat : List Char) : List Char → Option (List Char)
  | [] => if List.isPrefixOf pat ([] : List Char) then some [] else none
  | c :: rest =>
      if List.isPrefixOf pat (c :: rest) then some ((c :: rest).drop pat.length)
      else afterFirst pat rest

/-! ## Shader classification (claim C5) -/

namespace TS

/-- Listing split performed by backup.ts step 3 on a shaderpacks
directory, given the immediate file names and the immediate directory
names: returns the catalogued shader packs (files not ending in ".txt",
then all directories) and the config files to copy (files ending in
".txt"). -/
def splitShaders (files dirs : List String) : List String × List String :=
  (files.filter (fun f => !(endsWithStr f ".txt")) ++ dirs,
   files.filter (fun f => endsWithStr f ".txt"))

end TS

namespace Go

/-- backup.go processShaderpacks classification loop: iterates over all
immediate entries, files and directories alike; a name ending in ".txt"
is copied as a config (the copy error is ignored and the counter always
incremented), any other name is catalogued as a shader pack.  Returns the
catalogued names and the config-copy counter. -/
def processShaderpacks (entries : List DirEntry) : List String × Nat :=
  entries.foldl
    (fun acc e =>
      if endsWithStr e.name ".txt" then (acc.1, acc.2 + 1)
      else (acc.1 ++ [e.name], acc.2))
    ([], 0)

end Go

/-- Modelled from the spec: the classification rule as the claim states
it — among immediate entries, exactly the files whose names end in ".txt"
are config files (copied, not catalogued); every other file and every
directory, regardless of name, is catalogued as a pack.  Used only to
compare the two implementations against the claimed rule. -/
def splitShadersSpec (entries : List DirEntry) : List String × List String :=
  ((entries.filter (fun e => !e.isDir && !(endsWithStr e.name ".txt"))).map (fun e => e.name)
     ++ (entries.filter (fun e => e.isDir)).map (fun e => e.name),
   (entries.filter (fun e => !e.isDir && endsWithStr e.name ".txt")).map (fun e => e.name))

/-! ## Path validation (claims C3 and C6) -/

/-- Existence of the root and of the three recognisable markers, as seen
by the pathExists probes of validateMinecraftPath. -/
structure VWorld where
  rootExists : Bool
  optionsExists : Bool
  modsExists : Bool
  shadersExists : Bool
  deriving Repr, DecidableEq

namespace TS

/-- backup.ts validateMinecraftPath.  The second component of the result
is the list of paths probed with pathExists, recorded so that claims can
state that the marker check does not run when the root is missing. -/
def validateMinecraftPath (w : VWorld) (root : String) :
    (Bool × List String) × List String :=
  if !w.rootExists then
    ((false, ["Root path does not exist: " ++ root]), [root])
  else
    let errs :=
      if !w.optionsExists && !w.modsExists && !w.shadersExists then
        ["This doesn\x27t look like a Minecraft installation folder.",
         "Expected to find at least one of: options.txt, mods/, shaderpacks/"]
      else []
    ((errs.length == 0, errs),
     [root, root ++ "/options.txt", root ++ "/mods", root ++ "/shaderpacks"])

end TS

/-! ## Installation inspector (claim C7) -/

/-- One entry of the component list of the JSON component manifest
(mmc-pack.json). -/
structure MMCComponent where
  uid : String
  version : String
  deriving Repr, DecidableEq

/-- Inputs of the metadata inspector: the mod file names (none when the
mods directory is absent), the component manifest (outer none when the
file is absent, inner none when it does not parse) and the lines of the
instance-config file (none when absent). -/
structure InspectInput where
  modNames : Option (List String)
  mmcPack : Option (Option (List MMCComponent))
  instanceCfg : Option (List String)
  deriving Repr, DecidableEq

/-- Detected metadata, each field defaulting to the "Unknown" sentinel. -/
structure MinecraftInfo where
  version : String
  loader : String
  loaderVersion : String
  deriving Repr, DecidableEq

/-- Value captured by the IntendedVersion=(.+) regular expression on one
line of text, if any: everything after the first occurrence of the key,
required nonempty, then trimmed. -/
def tsIntendedValue (line : String) : Option String :=
  match afterFirst "IntendedVersion=".data line.data with
  | none => none
  | some v => if v = [] then none else some (trimStr (String.mk v))

/-- First match of the IntendedVersion regular expression over the whole
instance-config text (utils.ts getMinecraftInfo). -/
def tsCfgVersion (lines : List String) : Option String :=
  (lines.filterMap tsIntendedValue).head?

namespace TS

/-- Loader detection from the mod file names in utils.ts: all names are
scanned for "fabric" first, then all for "forge", then all for "quilt". -/
def loaderScan (mods : List String) : String :=
  if mods.any (fun m => hasSub (lowerStr m) "fabric") then "Fabric"
  else if mods.any (fun m => hasSub (lowerStr m) "forge") then "Forge"
  else if mods.any (fun m => hasSub (lowerStr m) "quilt") then "Quilt"
  else "Unknown"

/-- Version update from the first "net.minecraft" component of the
parsed manifest (utils.ts getMinecraftInfo): only a truthy (nonempty)
version overwrites. -/
def applyMc (comps : List MMCComponent) (st : MinecraftInfo) : MinecraftInfo :=
  match comps.find? (fun c => c.uid == "net.minecraft") with
  | some c => if c.version != "" then { st with version := c.version } else st
  | none => st

/-- Loader update from the first fabric-loader component of the parsed
manifest (utils.ts getMinecraftInfo). -/
def applyFabric (comps : List MMCComponent) (st : MinecraftInfo) : MinecraftInfo :=
  match comps.find? (fun c => c.uid == "net.fabricmc.fabric-loader") with
  | some c =>
      { st with loader := "Fabric",
                loaderVersion := if c.version != "" then c.version else "Unknown" }
  | none => st

/-- Loader update from the first minecraftforge component of the parsed
manifest (utils.ts getMinecraftInfo). -/
def applyForge (comps : List MMCComponent) (st : MinecraftInfo) : MinecraftInfo :=
  match comps.find? (fun c => c.uid == "net.minecraftforge") with
  | some c =>
      { st with loader := "Forge",
                loaderVersion := if c.version != "" then c.version else "Unknown" }
  | none => st

/-- utils.ts getMinecraftInfo, with the mutation of the three local
variables threaded as successive states.  Source order: mods scan, then
instance.cfg, then the three component lookups of mmc-pack.json (a
failed JSON parse throws into the surrounding catch, keeping earlier
assignments and skipping the rest). -/
def getMinecraftInfo (inp : InspectInput) : MinecraftInfo :=
  let loader0 :=
    match inp.modNames with
    | some mods => loaderScan mods
    | none => "Unknown"
  let version1 :=
    match inp.instanceCfg with
    | some lines => (tsCfgVersion lines).getD "Unknown"
    | none => "Unknown"
  let st1 : MinecraftInfo :=
    { version := version1, loader := loader0, loaderVersion := "Unknown" }
  match inp.mmcPack with
  | some (some comps) => applyForge comps (applyFabric comps (applyMc comps st1))
  | _ => st1

end TS

namespace Go

/-- Loader detection from the mod file names in backup.go: the entries
are scanned in order and the first entry matching any of the three
signatures decides the loader. -/
def loaderScan : List String → String
  | [] => "Unknown"
  | m :: rest =>
      let n := lowerStr m
      if hasSub n "fabric" then "Fabric"
      else if hasSub n "forge" then "Forge"
      else if hasSub n "quilt" then "Quilt"
      else loaderScan rest

/-- Component loop of backup.go getMinecraftInfo over the parsed
mmc-pack.json components; a later matching component overwrites an
earlier one. -/
def mmcFold (info : MinecraftInfo) (comps : List MMCComponent) : MinecraftInfo :=
  comps.foldl
    (fun i c =>
      if c.uid == "net.minecraft" then { i with version := c.version }
      else if c.uid == "net.fabricmc.fabric-loader" then
        { i with loader := "Fabric", loaderVersion := c.version }
      else if c.uid == "net.minecraftforge" then
        { i with loader := "Forge", loaderVersion := c.version }
      else i)
    info

/-- Line loop of backup.go getMinecraftInfo over instance.cfg; a later
IntendedVersion line overwrites an earlier one. -/
def cfgFold (info : MinecraftInfo) (lines : List String) : MinecraftInfo :=
  lines.foldl
    (fun i l =>
      if startsWithStr l "IntendedVersion=" then
        { i with version := trimStr (String.mk (l.data.drop 16)) }
      else i)
    info

/-- backup.go getMinecraftInfo.  Source order: mods scan, then
mmc-pack.json, then instance.cfg — the reverse of the TypeScript order
for the two sidecar files. -/
def getMinecraftInfo (inp : InspectInput) : MinecraftInfo :=
  let st0 : MinecraftInfo :=
    { version := "Unknown",
      loader := match inp.modNames with
                | some mods => loaderScan mods
                | none => "Unknown",
      loaderVersion := "Unknown" }
  let st1 :=
    match inp.mmcPack with
    | some (some comps) => mmcFold st0 comps
    | _ => st0
  match inp.instanceCfg with
  | some lines => cfgFold st1 lines
  | none => st1

end Go

/-- Version signal of the component manifest as the TypeScript code reads
it: the first "net.minecraft" component, provided its version is a
nonempty string. -/
def tsMmcVersion (inp : InspectInput) : Option String :=
  match inp.mmcPack with
  | some (some comps) =>
      match comps.find? (fun c => c.uid == "net.minecraft") with
      | some c => if c.version != "" then some c.version else none
      | none => none
  | _ => none

/-- Version signal of the instance-config file as the TypeScript code
reads it. -/
def tsCfgSignal (inp : InspectInput) : Option String :=
  match inp.instanceCfg with
  | some lines => tsCfgVersion lines
  | none => none

/-- Version signal of the component manifest as the Go code reads it: the
last "net.minecraft" component, empty version included. -/
def goMmcVersion (inp : InspectInput) : Option String :=
  match inp.mmcPack with
  | some (some comps) =>
      ((comps.filter (fun c => c.uid == "net.minecraft")).map (fun c => c.version)).getLast?
  | _ => none

/-- Version signal of the instance-config file as the Go code reads it:
the last IntendedVersion line, prefix-anchored, trimmed. -/
def goCfgVersion (inp : InspectInput) : Option String :=
  match inp.instanceCfg with
  | some lines =>
      ((lines.filter (fun l => startsWithStr l "IntendedVersion=")).map
        (fun l => trimStr (String.mk (l.data.drop 16)))).getLast?
  | none => none

/-- First-of-two-options combinator used to state version precedence. -/
def orD (a b : Option String) : Option String :=
  match a with
  | some v => some v
  | none => b

/-! ## TypeScript orchestrator (claims C1 to C4)

backup.ts performBackup is a straight-line sequence of guarded steps
mutating errors, stats and the output directory; it is embedded as a
state-transformer per step over a RunState, with every fallible
filesystem primitive's outcome drawn from a World record. -/

namespace TS

/-- Results of every filesystem primitive performBackup may use, in
program order.  Except.error e is a thrown exception with message text e.
listFiles and listDirs never throw in the TypeScript source (they catch
internally and return []), so their results are plain lists. -/
structure World where
  screenshotsExists : Bool
  modsExists : Bool
  shadersExists : Bool
  resourcepacksExists : Bool
  optionsExists : Bool
  savesExists : Bool
  xaeroExists : Bool
  dhExists : Bool
  copyScreenshotsRes : Except String Nat
  modFiles : List String
  modDirs : List String
  writeModsRes : Except String Unit
  shaderFiles : List String
  shaderDirs : List String
  writeShadersRes : Except String Unit
  copyConfigRes : String → Except String Unit
  packFiles : List String
  packDirs : List String
  writePacksRes : Except String Unit
  copyOptionsRes : Except String Unit
  copySavesRes : Except String Nat
  copyXaeroRes : Except String Nat
  copyDHRes : Except String Nat
  zipRes : Except String Unit

/-- Mutable state threaded through the steps of performBackup. -/
structure RunState where
  errors : List String
  stats : Stats
  trace : List Action

/-- Terminal result record of performBackup (BackupResult in types.ts);
note it has no total-files field — the TypeScript result exposes only the
per-category stats. -/
structure Result where
  success : Bool
  outputPath : String
  errors : List String
  stats : Stats
  deriving Repr, DecidableEq

/-- Copy the shader config files one by one, stopping at the first thrown
copy; returns the number copied before the failure and the first error,
if any. -/
def copyConfigsLoop (f : String → Except String Unit) : List String → Nat × Option String
  | [] => (0, none)
  | c :: rest =>
      match f c with
      | .error e => (0, some e)
      | .ok _ =>
          let r := copyConfigsLoop f rest
          (r.1 + 1, r.2)

/-- Step 1 of performBackup: copy the screenshots folder. -/
def step1 (w : World) (st : RunState) : RunState :=
  let st := { st with trace := st.trace ++ [.step 1] }
  if w.screenshotsExists then
    match w.copyScreenshotsRes with
    | .ok n =>
        { st with stats := { st.stats with screenshotsCopied := n },
                  trace := st.trace ++ [.copiedTree "screenshots"] }
    | .error e =>
        { st with errors := st.errors ++ ["Failed to copy screenshots: " ++ e] }
  else st

/-- Step 2 of performBackup: list the mods (files then directories) into
mods.txt; the count is recorded before the write, so it survives a failed
write. -/
def step2 (w : World) (st : RunState) : RunState :=
  let st := { st with trace := st.trace ++ [.step 2] }
  if w.modsExists then
    let allMods := w.modFiles ++ w.modDirs
    let st := { st with stats := { st.stats with modsListed := allMods.length } }
    match w.writeModsRes with
    | .ok _ => { st with trace := st.trace ++ [.wroteFile "mods.txt"] }
    | .error e => { st with errors := st.errors ++ ["Failed to list mods: " ++ e] }
  else st

/-- Step 3 of performBackup: split the shaderpacks listing into packs and
configs, write shaders.txt, then copy the config files into
shader_configs. -/
def step3 (w : World) (st : RunState) : RunState :=
  let st := { st with trace := st.trace ++ [.step 3] }
  if w.shadersExists then
    let sp := splitShaders w.shaderFiles w.shaderDirs
    let st := { st with stats := { st.stats with shadersListed := sp.1.length } }
    match w.writeShadersRes with
    | .error e =>
        { st with errors := st.errors ++ ["Failed to process shaderpacks: " ++ e] }
    | .ok _ =>
        let st := { st with trace :=
          st.trace ++ [Action.wroteFile "shaders.txt", Action.mkdirSub "shader_configs"] }
        let r := copyConfigsLoop w.copyConfigRes sp.2
        let st := { st with stats := { st.stats with shaderConfigsCopied := r.1 },
                            trace := st.trace ++ (sp.2.take r.1).map Action.copiedFile }
        match r.2 with
        | some e =>
            { st with errors := st.errors ++ ["Failed to process shaderpacks: " ++ e] }
        | none => st
  else st

/-- Step 4 of performBackup: list the resource packs into
resourcepacks.txt. -/
def step4 (w : World) (st : RunState) : RunState :=
  let st := { st with trace := st.trace ++ [.step 4] }
  if w.resourcepacksExists then
    let allPacks := w.packFiles ++ w.packDirs
    let st := { st with stats := { st.stats with resourcepacksListed := allPacks.length } }
    match w.writePacksRes with
    | .ok _ => { st with trace := st.trace ++ [.wroteFile "resourcepacks.txt"] }
    | .error e => { st with errors := st.errors ++ ["Failed to list resource packs: " ++ e] }
  else st

/-- Step 5 of performBackup: copy options.txt. -/
def step5 (w : World) (st : RunState) : RunState :=
  let st := { st with trace := st.trace ++ [.step 5] }
  if w.optionsExists then
    match w.copyOptionsRes with
    | .ok _ => { st with trace := st.trace ++ [.copiedFile "options.txt"] }
    | .error e => { st with errors := st.errors ++ ["Failed to copy options.txt: " ++ e] }
  else st

/-- Step 6 of performBackup: copy the saves folder when selected. -/
def step6 (w : World) (o : BackupOptions) (st : RunState) : RunState :=
  let st := { st with trace := st.trace ++ [.step 6] }
  if o.includeSaves && w.savesExists then
    match w.copySavesRes with
    | .ok n =>
        { st with stats := { st.stats with savesCopied := n },
                  trace := st.trace ++ [.copiedTree "saves"] }
    | .error e => { st with errors := st.errors ++ ["Failed to copy saves: " ++ e] }
  else st

/-- Step 7 of performBackup: copy the xaero folder when selected. -/
def step7 (w : World) (o : BackupOptions) (st : RunState) : RunState :=
  let st := { st with trace := st.trace ++ [.step 7] }
  if o.includeXaero && w.xaeroExists then
    match w.copyXaeroRes with
    | .ok n =>
        { st with stats := { st.stats with xaeroCopied := n },
                  trace := st.trace ++ [.copiedTree "xaero"] }
    | .error e => { st with errors := st.errors ++ ["Failed to copy Xaero data: " ++ e] }
  else st

/-- Step 8 of performBackup: copy the Distant Horizons folder when
selected. -/
def step8 (w : World) (o : BackupOptions) (st : RunState) : RunState :=
  let st := { st with trace := st.trace ++ [.step 8] }
  if o.includeDH && w.dhExists then
    match w.copyDHRes with
    | .ok n =>
        { st with stats := { st.stats with distantHorizonsCopied := n },
                  trace := st.trace ++ [.copiedTree "distant_horizons_server_data"] }
    | .error e =>
        { st with errors := st.errors ++ ["Failed to copy Distant Horizons data: " ++ e] }
  else st

/-- Step 9 of performBackup: generate and write info.md (the write has no
surrounding error handling in the source, so it is modelled as always
performed; its content is a pure function of state not needed by any
claim). -/
def step9 (st : RunState) : RunState :=
  { st with trace := st.trace ++ [.step 9, .wroteInfo] }

/-- Step 10 of performBackup: zip the output directory when selected; on
success the uncompressed folder is removed. -/
def step10 (w : World) (o : BackupOptions) (st : RunState) : RunState :=
  let st := { st with trace := st.trace ++ [.step 10] }
  if o.zipOutput then
    match w.zipRes with
    | .ok _ => { st with trace := st.trace ++ [.zipped, .removedDir] }
    | .error e => { st with errors := st.errors ++ ["Failed to create zip: " ++ e] }
  else st

/-- backup.ts performBackup: create the timestamped output directory,
run steps 1 to 10, and assemble the result.  The returned outputPath is
always the directory path — the source never reassigns it to the zip
path.  Path joins use "/"; the creation of the output directory is the
first recorded action. -/
def performBackup (w : World) (o : BackupOptions) (destRoot timestamp : String) :
    Result × List Action :=
  let backupPath := destRoot ++ "/backup_" ++ timestamp
  let st : RunState := { errors := [], stats := {}, trace := [Action.mkdirOut] }
  let st := step1 w st
  let st := step2 w st
  let st := step3 w st
  let st := step4 w st
  let st := step5 w st
  let st := step6 w o st
  let st := step7 w o st
  let st := step8 w o st
  let st := step9 st
  let st := step10 w o st
  ({ success := st.errors.length == 0, outputPath := backupPath,
     errors := st.errors, stats := st.stats }, st.trace)

/-- index.ts main flow around the core: build paths, validate, abort with
the validation errors (exit code 1) without calling performBackup when
invalid, otherwise run the backup. -/
def runPipeline (vw : VWorld) (w : World) (o : BackupOptions)
    (root dest timestamp : String) : Except (List String) (Result × List Action) :=
  let v := validateMinecraftPath vw root
  if v.1.1 then .ok (performBackup w o dest timestamp) else .error v.1.2

end TS

/-! ## Go orchestrator (claims C1 to C4)

backup.go Perform follows the same step sequence; the differences
embedded below, each visible in the source, are: the root-existence check
aborts the whole run before the output directory is created; failures of
the three listing steps and of the options copy are silently discarded
(no error is appended); a TotalFiles counter accumulates the copy counts
of screenshots, saves, xaero and Distant Horizons but not the shader
configs; and on a successful zip the result's OutputPath becomes the
archive path. -/

namespace Go

/-- Results of every filesystem primitive backup.go Perform may use, in
program order.  rootExists mirrors the os.Stat / os.IsNotExist check on
the installation root. -/
structure World where
  rootExists : Bool
  mkdirRes : Except String Unit
  screenshotsExists : Bool
  modsExists : Bool
  shadersExists : Bool
  resourcepacksExists : Bool
  optionsExists : Bool
  savesExists : Bool
  xaeroExists : Bool
  dhExists : Bool
  copyScreenshotsRes : Except String Nat
  listModsRes : Except String (List String)
  readShadersRes : Except String (List DirEntry)
  listPacksRes : Except String (List String)
  copyOptionsRes : Except String Unit
  copySavesRes : Except String Nat
  copyXaeroRes : Except String Nat
  copyDHRes : Except String Nat
  zipRes : Except String Unit
  deriving Repr

/-- tui.Config: the user's selections handed to Perform. -/
structure Config where
  minecraftPath : String
  backupDest : String
  zipOutput : Bool
  includeSaves : Bool
  includeXaero : Bool
  includeDH : Bool
  openWhenDone : Bool
  deriving Repr, DecidableEq

/-- Result record of backup.go Perform. -/
structure Result where
  success : Bool
  outputPath : String
  totalFiles : Nat
  errors : List String
  stats : Stats
  deriving Repr, DecidableEq

/-- Mutable state threaded through the steps of Perform. -/
structure St where
  errors : List String
  stats : Stats
  totalFiles : Nat
  outputPath : String
  trace : List Action

/-- Step 1 of Perform: copy screenshots; a failure appends one
"screenshots:" error, a success also bumps TotalFiles. -/
def g1 (w : World) (st : St) : St :=
  let st := { st with trace := st.trace ++ [.step 1] }
  if w.screenshotsExists then
    match w.copyScreenshotsRes with
    | .ok n =>
        { st with stats := { st.stats with screenshotsCopied := n },
                  totalFiles := st.totalFiles + n,
                  trace := st.trace ++ [.copiedTree "screenshots"] }
    | .error e => { st with errors := st.errors ++ ["screenshots: " ++ e] }
  else st

/-- Step 2 of Perform: list mods into mods.txt; a listing failure is
silently discarded (the source only acts when err == nil). -/
def g2 (w : World) (st : St) : St :=
  let st := { st with trace := st.trace ++ [.step 2] }
  if w.modsExists then
    match w.listModsRes with
    | .ok mods =>
        { st with stats := { st.stats with modsListed := mods.length },
                  trace := st.trace ++ [.wroteFile "mods.txt"] }
    | .error _ => st
  else st

/-- Step 3 of Perform: processShaderpacks; a read failure is silently
discarded.  On success the config directory is created, each config
copied (copy errors ignored by the source) and shaders.txt written;
TotalFiles is not touched. -/
def g3 (w : World) (st : St) : St :=
  let st := { st with trace := st.trace ++ [.step 3] }
  if w.shadersExists then
    match w.readShadersRes with
    | .ok entries =>
        let p := processShaderpacks entries
        { st with
          stats := { st.stats with shadersListed := p.1.length,
                                   shaderConfigsCopied := p.2 },
          trace := st.trace ++ [Action.mkdirSub "shader_configs"]
            ++ ((entries.filter (fun e => endsWithStr e.name ".txt")).map
                 (fun e => Action.copiedFile e.name))
            ++ [Action.wroteFile "shaders.txt"] }
    | .error _ => st
  else st

/-- Step 4 of Perform: list resource packs; a listing failure is silently
discarded. -/
def g4 (w : World) (st : St) : St :=
  let st := { st with trace := st.trace ++ [.step 4] }
  if w.resourcepacksExists then
    match w.listPacksRes with
    | .ok packs =>
        { st with stats := { st.stats with resourcepacksListed := packs.length },
                  trace := st.trace ++ [.wroteFile "resourcepacks.txt"] }
    | .error _ => st
  else st

/-- Step 5 of Perform: copy options.txt; the copyFile error value is
discarded by the source. -/
def g5 (w : World) (st : St) : St :=
  let st := { st with trace := st.trace ++ [.step 5] }
  if w.optionsExists then
    match w.copyOptionsRes with
    | .ok _ => { st with trace := st.trace ++ [.copiedFile "options.txt"] }
    | .error _ => st
  else st

/-- Step 6 of Perform: copy saves when selected. -/
def g6 (w : World) (cfg : Config) (st : St) : St :=
  let st := { st with trace := st.trace ++ [.step 6] }
  if cfg.includeSaves && w.savesExists then
    match w.copySavesRes with
    | .ok n =>
        { st with stats := { st.stats with savesCopied := n },
                  totalFiles := st.totalFiles + n,
                  trace := st.trace ++ [.copiedTree "saves"] }
    | .error e => { st with errors := st.errors ++ ["saves: " ++ e] }
  else st

/-- Step 7 of Perform: copy xaero when selected. -/
def g7 (w : World) (cfg : Config) (st : St) : St :=
  let st := { st with trace := st.trace ++ [.step 7] }
  if cfg.includeXaero && w.xaeroExists then
    match w.copyXaeroRes with
    | .ok n =>
        { st with stats := { st.stats with xaeroCopied := n },
                  totalFiles := st.totalFiles + n,
                  trace := st.trace ++ [.copiedTree "xaero"] }
    | .error e => { st with errors := st.errors ++ ["xaero: " ++ e] }
  else st

/-- Step 8 of Perform: copy Distant Horizons data when selected. -/
def g8 (w : World) (cfg : Config) (st : St) : St :=
  let st := { st with trace := st.trace ++ [.step 8] }
  if cfg.includeDH && w.dhExists then
    match w.copyDHRes with
    | .ok n =>
        { st with stats := { st.stats with distantHorizonsCopied := n },
                  totalFiles := st.totalFiles + n,
                  trace := st.trace ++ [.copiedTree "distant_horizons_server_data"] }
    | .error e => { st with errors := st.errors ++ ["distant_horizons: " ++ e] }
  else st

/-- Step 9 of Perform: generate info.md (the os.WriteFile error is
discarded by the source) and set the result's OutputPath to the
directory. -/
def g9 (backupPath : String) (st : St) : St :=
  { st with trace := st.trace ++ [.step 9, .wroteInfo], outputPath := backupPath }

/-- Step 10 of Perform: zip when selected; on success the uncompressed
directory is removed and OutputPath becomes the archive path, on failure
one "zip:" error is appended and OutputPath stays the directory. -/
def g10 (w : World) (cfg : Config) (backupPath : String) (st : St) : St :=
  let st := { st with trace := st.trace ++ [.step 10] }
  if cfg.zipOutput then
    match w.zipRes with
    | .ok _ =>
        { st with trace := st.trace ++ [.zipped, .removedDir],
                  outputPath := backupPath ++ ".zip" }
    | .error e => { st with errors := st.errors ++ ["zip: " ++ e] }
  else st

/-- Step 11 of Perform: open the parent of the output location when
selected (the action records the path whose parent directory is
opened). -/
def g11 (cfg : Config) (st : St) : St :=
  if cfg.openWhenDone then
    { st with trace := st.trace ++ [.openedFolder st.outputPath] }
  else st

/-- backup.go Perform: abort with an error before creating anything when
the root does not exist or the output directory cannot be created,
otherwise run steps 1 to 11 and assemble the result, with success
computed from the final error list. -/
def perform (w : World) (cfg : Config) (timestamp : String) :
    Except String Result × List Action :=
  if w.rootExists = false then
    (Except.error ("minecraft path does not exist: " ++ cfg.minecraftPath), [])
  else
    match w.mkdirRes with
    | .error e => (Except.error ("failed to create backup folder: " ++ e), [])
    | .ok _ =>
        let backupPath := cfg.backupDest ++ "/backup_" ++ timestamp
        let st : St := { errors := [], stats := {}, totalFiles := 0,
                         outputPath := "", trace := [Action.mkdirOut] }
        let st := g1 w st
        let st := g2 w st
        let st := g3 w st
        let st := g4 w st
        let st := g5 w st
        let st := g6 w cfg st
        let st := g7 w cfg st
        let st := g8 w cfg st
        let st := g9 backupPath st
        let st := g10 w cfg backupPath st
        let st := g11 cfg st
        (Except.ok { success := st.errors.length == 0, outputPath := st.outputPath,
                     totalFiles := st.totalFiles, errors := st.errors,
                     stats := st.stats }, st.trace)

/-- Total-files figure recomputed by backup.go generateInfoMD for the
manifest (identical to the infoContent computation in backup.ts): the sum
of the five copied categories, shader configs included. -/
def infoTotal (s : Stats) : Nat :=
  s.screenshotsCopied + s.shaderConfigsCopied + s.savesCopied
    + s.xaeroCopied + s.distantHorizonsCopied

end Go

/-! ## Per-step error and trace contributions

Each step of either orchestrator only appends to the error list and the
trace; the following definitions name the appended segments, so that a
whole run decomposes into their concatenation. -/

namespace TS

/-- Errors appended by step 1. -/
def err1 (w : World) : List String :=
  if w.screenshotsExists then
    match w.copyScreenshotsRes with
    | .ok _ => []
    | .error e => ["Failed to copy screenshots: " ++ e]
  else []

/-- Errors appended by step 2. -/
def err2 (w : World) : List String :=
  if w.modsExists then
    match w.writeModsRes with
    | .ok _ => []
    | .error e => ["Failed to list mods: " ++ e]
  else []

/-- Errors appended by step 3. -/
def err3 (w : World) : List String :=
  if w.shadersExists then
    match w.writeShadersRes with
    | .error e => ["Failed to process shaderpacks: " ++ e]
    | .ok _ =>
        match (copyConfigsLoop w.copyConfigRes
                (splitShaders w.shaderFiles w.shaderDirs).2).2 with
        | some e => ["Failed to process shaderpacks: " ++ e]
        | none => []
  else []

/-- Errors appended by step 4. -/
def err4 (w : World) : List String :=
  if w.resourcepacksExists then
    match w.writePacksRes with
    | .ok _ => []
    | .error e => ["Failed to list resource packs: " ++ e]
  else []

/-- Errors appended by step 5. -/
def err5 (w : World) : List String :=
  if w.optionsExists then
    match w.copyOptionsRes with
    | .ok _ => []
    | .error e => ["Failed to copy options.txt: " ++ e]
  else []

/-- Errors appended by step 6. -/
def err6 (w : World) (o : BackupOptions) : List String :=
  if o.includeSaves && w.savesExists then
    match w.copySavesRes with
    | .ok _ => []
    | .error e => ["Failed to copy saves: " ++ e]
  else []

/-- Errors appended by step 7. -/
def err7 (w : World) (o : BackupOptions) : List String :=
  if o.includeXaero && w.xaeroExists then
    match w.copyXaeroRes with
    | .ok _ => []
    | .error e => ["Failed to copy Xaero data: " ++ e]
  else []

/-- Errors appended by step 8. -/
def err8 (w : World) (o : BackupOptions) : List String :=
  if o.includeDH && w.dhExists then
    match w.copyDHRes with
    | .ok _ => []
    | .error e => ["Failed to copy Distant Horizons data: " ++ e]
  else []

/-- Errors appended by the zip step. -/
def err10 (w : World) (o : BackupOptions) : List String :=
  if o.zipOutput then
    match w.zipRes with
    | .ok _ => []
    | .error e => ["Failed to create zip: " ++ e]
  else []

/-- Errors accumulated before the zip step. -/
def errsPreZip (w : World) (o : BackupOptions) : List String :=
  err1 w ++ (err2 w ++ (err3 w ++ (err4 w ++ (err5 w
    ++ (err6 w o ++ (err7 w o ++ err8 w o))))))

/-- Errors of a whole run. -/
def allErrs (w : World) (o : BackupOptions) : List String :=
  errsPreZip w o ++ err10 w o

/-- Trace appended by step 1. -/
def tr1 (w : World) : List Action :=
  Action.step 1 ::
    (if w.screenshotsExists then
      match w.copyScreenshotsRes with
      | .ok _ => [Action.copiedTree "screenshots"]
      | .error _ => []
    else [])

/-- Trace appended by step 2. -/
def tr2 (w : World) : List Action :=
  Action.step 2 ::
    (if w.modsExists then
      match w.writeModsRes with
      | .ok _ => [Action.wroteFile "mods.txt"]
      | .error _ => []
    else [])

/-- Trace appended by step 3. -/
def tr3 (w : World) : List Action :=
  Action.step 3 ::
    (if w.shadersExists then
      match w.writeShadersRes with
      | .error _ => []
      | .ok _ =>
          [Action.wroteFile "shaders.txt", Action.mkdirSub "shader_configs"]
            ++ (((splitShaders w.shaderFiles w.shaderDirs).2.take
                  (copyConfigsLoop w.copyConfigRes
                    (splitShaders w.shaderFiles w.shaderDirs).2).1).map
                Action.copiedFile)
    else [])

/-- Trace appended by step 4. -/
def tr4 (w : World) : List Action :=
  Action.step 4 ::
    (if w.resourcepacksExists then
      match w.writePacksRes with
      | .ok _ => [Action.wroteFile "resourcepacks.txt"]
      | .error _ => []
    else [])

/-- Trace appended by step 5. -/
def tr5 (w : World) : List Action :=
  Action.step 5 ::
    (if w.optionsExists then
      match w.copyOptionsRes with
      | .ok _ => [Action.copiedFile "options.txt"]
      | .error _ => []
    else [])

/-- Trace appended by step 6. -/
def tr6 (w : World) (o : BackupOptions) : List Action :=
  Action.step 6 ::
    (if o.includeSaves && w.savesExists then
      match w.copySavesRes with
      | .ok _ => [Action.copiedTree "saves"]
      | .error _ => []
    else [])

/-- Trace appended by step 7. -/
def tr7 (w : World) (o : BackupOptions) : List Action :=
  Action.step 7 ::
    (if o.includeXaero && w.xaeroExists then
      match w.copyXaeroRes with
      | .ok _ => [Action.copiedTree "xaero"]
      | .error _ => []
    else [])

/-- Trace appended by step 8. -/
def tr8 (w : World) (o : BackupOptions) : List Action :=
  Action.step 8 ::
    (if o.includeDH && w.dhExists then
      match w.copyDHRes with
      | .ok _ => [Action.copiedTree "distant_horizons_server_data"]
      | .error _ => []
    else [])

/-- Trace appended by step 9. -/
def tr9 : List Action := [Action.step 9, Action.wroteInfo]

/-- Trace appended by the zip step. -/
def tr10 (w : World) (o : BackupOptions) : List Action :=
  Action.step 10 ::
    (if o.zipOutput then
      match w.zipRes with
      | .ok _ => [Action.zipped, Action.removedDir]
      | .error _ => []
    else [])

/-- Trace of a whole run. -/
def traceAll (w : World) (o : BackupOptions) : List Action :=
  Action.mkdirOut :: (tr1 w ++ (tr2 w ++ (tr3 w ++ (tr4 w ++ (tr5 w
    ++ (tr6 w o ++ (tr7 w o ++ (tr8 w o ++ (tr9 ++ tr10 w o)))))))))

/-- Number of failing steps of a run: a step fails when its guard holds
and its fallible operation fails (for step 3: the listing write fails or
some config copy fails). -/
def failTally (w : World) (o : BackupOptions) : Nat :=
  (w.screenshotsExists && !(exOk w.copyScreenshotsRes)).toNat
  + (w.modsExists && !(exOk w.writeModsRes)).toNat
  + (w.shadersExists && (!(exOk w.writeShadersRes)
      || !((splitShaders w.shaderFiles w.shaderDirs).2.all
            (fun c => exOk (w.copyConfigRes c))))).toNat
  + (w.resourcepacksExists && !(exOk w.writePacksRes)).toNat
  + (w.optionsExists && !(exOk w.copyOptionsRes)).toNat
  + (o.includeSaves && w.savesExists && !(exOk w.copySavesRes)).toNat
  + (o.includeXaero && w.xaeroExists && !(exOk w.copyXaeroRes)).toNat
  + (o.includeDH && w.dhExists && !(exOk w.copyDHRes)).toNat
  + (o.zipOutput && !(exOk w.zipRes)).toNat

end TS

namespace Go

/-- Errors appended by Go step 1 (screenshots). -/
def gerr1 (w : World) : List String :=
  if w.screenshotsExists then
    match w.copyScreenshotsRes with
    | .ok _ => []
    | .error e => ["screenshots: " ++ e]
  else []

/-- Errors appended by Go step 6 (saves). -/
def gerr6 (w : World) (cfg : Config) : List String :=
  if cfg.includeSaves && w.savesExists then
    match w.copySavesRes with
    | .ok _ => []
    | .error e => ["saves: " ++ e]
  else []

/-- Errors appended by Go step 7 (xaero). -/
def gerr7 (w : World) (cfg : Config) : List String :=
  if cfg.includeXaero && w.xaeroExists then
    match w.copyXaeroRes with
    | .ok _ => []
    | .error e => ["xaero: " ++ e]
  else []

/-- Errors appended by Go step 8 (Distant Horizons). -/
def gerr8 (w : World) (cfg : Config) : List String :=
  if cfg.includeDH && w.dhExists then
    match w.copyDHRes with
    | .ok _ => []
    | .error e => ["distant_horizons: " ++ e]
  else []

/-- Errors appended by the Go zip step. -/
def gerr10 (w : World) (cfg : Config) : List String :=
  if cfg.zipOutput then
    match w.zipRes with
    | .ok _ => []
    | .error e => ["zip: " ++ e]
  else []

/-- Errors accumulated by a Go run before the zip step; the listing steps
and the options copy never contribute. -/
def gerrsPreZip (w : World) (cfg : Config) : List String :=
  gerr1 w ++ (gerr6 w cfg ++ (gerr7 w cfg ++ gerr8 w cfg))

/-- Errors of a whole Go run. -/
def gAllErrs (w : World) (cfg : Config) : List String :=
  gerrsPreZip w cfg ++ gerr10 w cfg

/-- Trace appended by Go step 1. -/
def gtr1 (w : World) : List Action :=
  Action.step 1 ::
    (if w.screenshotsExists then
      match w.copyScreenshotsRes with
      | .ok _ => [Action.copiedTree "screenshots"]
      | .error _ => []
    else [])

/-- Trace appended by Go step 2. -/
def gtr2 (w : World) : List Action :=
  Action.step 2 ::
    (if w.modsExists then
      match w.listModsRes with
      | .ok _ => [Action.wroteFile "mods.txt"]
      | .error _ => []
    else [])

/-- Trace appended by Go step 3. -/
def gtr3 (w : World) : List Action :=
  Action.step 3 ::
    (if w.shadersExists then
      match w.readShadersRes with
      | .ok entries =>
          Action.mkdirSub "shader_configs"
            :: ((entries.filter (fun e => endsWithStr e.name ".txt")).map
                 (fun e => Action.copiedFile e.name))
            ++ [Action.wroteFile "shaders.txt"]
      | .error _ => []
    else [])

/-- Trace appended by Go step 4. -/
def gtr4 (w : World) : List Action :=
  Action.step 4 ::
    (if w.resourcepacksExists then
      match w.listPacksRes with
      | .ok _ => [Action.wroteFile "resourcepacks.txt"]
      | .error _ => []
    else [])

/-- Trace appended by Go step 5. -/
def gtr5 (w : World) : List Action :=
  Action.step 5 ::
    (if w.optionsExists then
      match w.copyOptionsRes with
      | .ok _ => [Action.copiedFile "options.txt"]
      | .error _ => []
    else [])

/-- Trace appended by Go step 6. -/
def gtr6 (w : World) (cfg : Config) : List Action :=
  Action.step 6 ::
    (if cfg.includeSaves && w.savesExists then
      match w.copySavesRes with
      | .ok _ => [Action.copiedTree "saves"]
      | .error _ => []
    else [])

/-- Trace appended by Go step 7. -/
def gtr7 (w : World) (cfg : Config) : List Action :=
  Action.step 7 ::
    (if cfg.includeXaero && w.xaeroExists then
      match w.copyXaeroRes with
      | .ok _ => [Action.copiedTree "xaero"]
      | .error _ => []
    else [])

/-- Trace appended by Go step 8. -/
def gtr8 (w : World) (cfg : Config) : List Action :=
  Action.step 8 ::
    (if cfg.includeDH && w.dhExists then
      match w.copyDHRes with
      | .ok _ => [Action.copiedTree "distant_horizons_server_data"]
      | .error _ => []
    else [])

/-- Trace appended by Go step 9. -/
def gtr9 : List Action := [Action.step 9, Action.wroteInfo]

/-- Trace appended by the Go zip step. -/
def gtr10 (w : World) (cfg : Config) : List Action :=
  Action.step 10 ::
    (if cfg.zipOutput then
      match w.zipRes with
      | .ok _ => [Action.zipped, Action.removedDir]
      | .error _ => []
    else [])

/-- Final output location of a Go run that got past the fatal checks. -/
def goOutPath (w : World) (cfg : Config) (bp : String) : String :=
  if cfg.zipOutput && exOk w.zipRes then bp ++ ".zip" else bp

/-- Trace appended by the open-folder step. -/
def gtr11 (w : World) (cfg : Config) (bp : String) : List Action :=
  if cfg.openWhenDone then [Action.openedFolder (goOutPath w cfg bp)] else []

/-- Trace of a whole Go run that got past the fatal checks. -/
def gTraceAll (w : World) (cfg : Config) (bp : String) : List Action :=
  Action.mkdirOut :: (gtr1 w ++ (gtr2 w ++ (gtr3 w ++ (gtr4 w ++ (gtr5 w
    ++ (gtr6 w cfg ++ (gtr7 w cfg ++ (gtr8 w cfg ++ (gtr9
    ++ (gtr10 w cfg ++ gtr11 w cfg bp))))))))))

/-- Number of failing copy or zip steps of a Go run — the only failures
that append an error. -/
def copyFailTally (w : World) (cfg : Config) : Nat :=
  (w.screenshotsExists && !(exOk w.copyScreenshotsRes)).toNat
  + (cfg.includeSaves && w.savesExists && !(exOk w.copySavesRes)).toNat
  + (cfg.includeXaero && w.xaeroExists && !(exOk w.copyXaeroRes)).toNat
  + (cfg.includeDH && w.dhExists && !(exOk w.copyDHRes)).toNat
  + (cfg.zipOutput && !(exOk w.zipRes)).toNat

/-- State after steps 1 to 10 of a Go run that got past the fatal
checks. -/
def goPre (w : World) (cfg : Config) (bp : String) : St :=
  let st : St := { errors := [], stats := {}, totalFiles := 0,
                   outputPath := "", trace := [Action.mkdirOut] }
  let st := g1 w st
  let st := g2 w st
  let st := g3 w st
  let st := g4 w st
  let st := g5 w st
  let st := g6 w cfg st
  let st := g7 w cfg st
  let st := g8 w cfg st
  let st := g9 bp st
  g10 w cfg bp st

/-- State after steps 1 to 11 of a Go run that got past the fatal
checks. -/
def goFinal (w : World) (cfg : Config) (bp : String) : St :=
  g11 cfg (goPre w cfg bp)

/-- Result record assembled at the end of a Go run that got past the
fatal checks. -/
def finalResult (w : World) (cfg : Config) (bp : String) : Result :=
  { success := (goFinal w cfg bp).errors.length == 0,
    outputPath := (goFinal w cfg bp).outputPath,
    totalFiles := (goFinal w cfg bp).totalFiles,
    errors := (goFinal w cfg bp).errors,
    stats := (goFinal w cfg bp).stats }

end Go

/-! ## Concrete runs used by counterexamples and witnesses -/

/-- Selection with every toggle off. -/
def optsNone : BackupOptions :=
  { zipOutput := false, includeSaves := false, includeXaero := false,
    includeDH := false, openWhenDone := false }

/-- Selection with only compression on. -/
def optsZip : BackupOptions := { optsNone with zipOutput := true }

/-- Go configuration with every toggle off. -/
def cfgPlain : Go.Config :=
  { minecraftPath := "mc", backupDest := "dest", zipOutput := false,
    includeSaves := false, includeXaero := false, includeDH := false,
    openWhenDone := false }

/-- Go configuration with only compression on. -/
def cfgZip : Go.Config := { cfgPlain with zipOutput := true }

/-- Go world in which only the mods directory exists and reading it
fails; every other source is absent. -/
def gwModsFail : Go.World :=
  { rootExists := true, mkdirRes := .ok (),
    screenshotsExists := false, modsExists := true, shadersExists := false,
    resourcepacksExists := false, optionsExists := false, savesExists := false,
    xaeroExists := false, dhExists := false,
    copyScreenshotsRes := .ok 0, listModsRes := .error "permission denied",
    readShadersRes := .ok [], listPacksRes := .ok [],
    copyOptionsRes := .ok (), copySavesRes := .ok 0, copyXaeroRes := .ok 0,
    copyDHRes := .ok 0, zipRes := .ok () }

/-- Go world in which only the shaderpacks directory exists and holds one
config file; every copy source is absent. -/
def gwConfigOnly : Go.World :=
  { gwModsFail with
    modsExists := false,
    listModsRes := .ok [],
    shadersExists := true,
    readShadersRes := .ok [{ name := "BSL_v8.2.txt", isDir := false }] }

/-- Go world with every source absent and every primitive succeeding. -/
def gwQuiet : Go.World :=
  { gwModsFail with modsExists := false, listModsRes := .ok [] }

/-- Go world with every source absent and a failing zip. -/
def gwZipFail : Go.World := { gwQuiet with zipRes := .error "disk full" }

/-- Go world whose installation root does not exist. -/
def gwNoRoot : Go.World := { gwQuiet with rootExists := false }

/-- TypeScript world with every source absent and every primitive
succeeding. -/
def twQuiet : TS.World :=
  { screenshotsExists := false, modsExists := false, shadersExists := false,
    resourcepacksExists := false, optionsExists := false, savesExists := false,
    xaeroExists := false, dhExists := false,
    copyScreenshotsRes := .ok 0, modFiles := [], modDirs := [],
    writeModsRes := .ok (), shaderFiles := [], shaderDirs := [],
    writeShadersRes := .ok (), copyConfigRes := fun _ => .ok (),
    packFiles := [], packDirs := [], writePacksRes := .ok (),
    copyOptionsRes := .ok (), copySavesRes := .ok 0, copyXaeroRes := .ok 0,
    copyDHRes := .ok 0, zipRes := .ok () }

/-- TypeScript world with every source absent and a failing zip. -/
def twZipFail : TS.World := { twQuiet with zipRes := .error "disk full" }

/-- TypeScript world in which only screenshots exist and their copy
fails. -/
def twShotsFail : TS.World :=
  { twQuiet with
    screenshotsExists := true,
    copyScreenshotsRes := .error "read error" }

/-- Inspector input with both sidecar files present: the manifest parses
with a "net.minecraft" component of version 1.20.1 and the instance
config carries IntendedVersion 1.19.2. -/
def inspBoth : InspectInput :=
  { modNames := none,
    mmcPack := some (some [{ uid := "net.minecraft", version := "1.20.1" }]),
    instanceCfg := some ["IntendedVersion=1.19.2"] }

/-- Inspector input with no signal at all. -/
def inspNone : InspectInput :=
  { modNames := none, mmcPack := none, instanceCfg := none }

/-- Shaderpacks listing with one pack file, one config file and one pack
directory. -/
def entsMix : List DirEntry :=
  [{ name := "BSL_v8.2.zip", isDir := false },
   { name := "BSL_v8.2.txt", isDir := false },
   { name := "ComplementaryShaders", isDir := true }]

/-- Shaderpacks listing with a single subdirectory whose name ends in
".txt". -/
def entsTxtDir : List DirEntry := [{ name := "Sildurs settings.txt", isDir := true }]

/-- Validation worlds: missing root, empty root, root with only the
options file. -/
def vwMissing : VWorld :=
  { rootExists := false, optionsExists := false, modsExists := false,
    shadersExists := false }

/-- Existing root with none of the three markers. -/
def vwEmpty : VWorld := { vwMissing with rootExists := true }

/-- Existing root with only the options file. -/
def vwOptions : VWorld := { vwEmpty with optionsExists := true }

end Totem

/-! ## Step lemmas: each TypeScript step appends its error and trace
segments to the incoming state. -/

namespace Totem

theorem TS.step1_errors (w : TS.World) (st : TS.RunState) :
    (TS.step1 w st).errors = st.errors ++ TS.err1 w := by
  cases hs : w.screenshotsExists <;> cases hc : w.copyScreenshotsRes <;>
    simp [TS.step1, TS.err1, hs, hc]

theorem TS.step2_errors (w : TS.World) (st : TS.RunState) :
    (TS.step2 w st).errors = st.errors ++ TS.err2 w := by
  cases hs : w.modsExists <;> cases hc : w.writeModsRes <;>
    simp [TS.step2, TS.err2, hs, hc]

theorem TS.step3_errors (w : TS.World) (st : TS.RunState) :
    (TS.step3 w st).errors = st.errors ++ TS.err3 w := by
  cases hs : w.shadersExists <;> cases hw : w.writeShadersRes <;>
    cases hl : (TS.copyConfigsLoop w.copyConfigRes
      (TS.splitShaders w.shaderFiles w.shaderDirs).2).2 <;>
    simp [TS.step3, TS.err3, hs, hw, hl]

theorem TS.step4_errors (w : TS.World) (st : TS.RunState) :
    (TS.step4 w st).errors = st.errors ++ TS.err4 w := by
  cases hs : w.resourcepacksExists <;> cases hc : w.writePacksRes <;>
    simp [TS.step4, TS.err4, hs, hc]

theorem TS.step5_errors (w : TS.World) (st : TS.RunState) :
    (TS.step5 w st).errors = st.errors ++ TS.err5 w := by
  cases hs : w.optionsExists <;> cases hc : w.copyOptionsRes <;>
    simp [TS.step5, TS.err5, hs, hc]

theorem TS.step6_errors (w : TS.World) (o : BackupOptions) (st : TS.RunState) :
    (TS.step6 w o st).errors = st.errors ++ TS.err6 w o := by
  cases hs : o.includeSaves && w.savesExists <;> cases hc : w.copySavesRes <;>
    simp [TS.step6, TS.err6, hs, hc]

theorem TS.step7_errors (w : TS.World) (o : BackupOptions) (st : TS.RunState) :
    (TS.step7 w o st).errors = st.errors ++ TS.err7 w o := by
  cases hs : o.includeXaero && w.xaeroExists <;> cases hc : w.copyXaeroRes <;>
    simp [TS.step7, TS.err7, hs, hc]

theorem TS.step8_errors (w : TS.World) (o : BackupOptions) (st : TS.RunState) :
    (TS.step8 w o st).errors = st.errors ++ TS.err8 w o := by
  cases hs : o.includeDH && w.dhExists <;> cases hc : w.copyDHRes <;>
    simp [TS.step8, TS.err8, hs, hc]

theorem TS.step9_errors (st : TS.RunState) :
    (TS.step9 st).errors = st.errors := by
  simp [TS.step9]

theorem TS.step10_errors (w : TS.World) (o : BackupOptions) (st : TS.RunState) :
    (TS.step10 w o st).errors = st.errors ++ TS.err10 w o := by
  cases hs : o.zipOutput <;> cases hc : w.zipRes <;>
    simp [TS.step10, TS.err10, hs, hc]

theorem TS.step1_trace (w : TS.World) (st : TS.RunState) :
    (TS.step1 w st).trace = st.trace ++ TS.tr1 w := by
  cases hs : w.screenshotsExists <;> cases hc : w.copyScreenshotsRes <;>
    simp [TS.step1, TS.tr1, hs, hc]

theorem TS.step2_trace (w : TS.World) (st : TS.RunState) :
    (TS.step2 w st).trace = st.trace ++ TS.tr2 w := by
  cases hs : w.modsExists <;> cases hc : w.writeModsRes <;>
    simp [TS.step2, TS.tr2, hs, hc]

theorem TS.step3_trace (w : TS.World) (st : TS.RunState) :
    (TS.step3 w st).trace = st.trace ++ TS.tr3 w := by
  cases hs : w.shadersExists <;> cases hw : w.writeShadersRes <;>
    cases hl : (TS.copyConfigsLoop w.copyConfigRes
      (TS.splitShaders w.shaderFiles w.shaderDirs).2).2 <;>
    simp [TS.step3, TS.tr3, hs, hw, hl]

theorem TS.step4_trace (w : TS.World) (st : TS.RunState) :
    (TS.step4 w st).trace = st.trace ++ TS.tr4 w := by
  cases hs : w.resourcepacksExists <;> cases hc : w.writePacksRes <;>
    simp [TS.step4, TS.tr4, hs, hc]

theorem TS.step5_trace (w : TS.World) (st : TS.RunState) :
    (TS.step5 w st).trace = st.trace ++ TS.tr5 w := by
  cases hs : w.optionsExists <;> cases hc : w.copyOptionsRes <;>
    simp [TS.step5, TS.tr5, hs, hc]

theorem TS.step6_trace (w : TS.World) (o : BackupOptions) (st : TS.RunState) :
    (TS.step6 w o st).trace = st.trace ++ TS.tr6 w o := by
  cases hs : o.includeSaves && w.savesExists <;> cases hc : w.copySavesRes <;>
    simp [TS.step6, TS.tr6, hs, hc]

theorem TS.step7_trace (w : TS.World) (o : BackupOptions) (st : TS.RunState) :
    (TS.step7 w o st).trace = st.trace ++ TS.tr7 w o := by
  cases hs : o.includeXaero && w.xaeroExists <;> cases hc : w.copyXaeroRes <;>
    simp [TS.step7, TS.tr7, hs, hc]

theorem TS.step8_trace (w : TS.World) (o : BackupOptions) (st : TS.RunState) :
    (TS.step8 w o st).trace = st.trace ++ TS.tr8 w o := by
  cases hs : o.includeDH && w.dhExists <;> cases hc : w.copyDHRes <;>
    simp [TS.step8, TS.tr8, hs, hc]

theorem TS.step9_trace (st : TS.RunState) :
    (TS.step9 st).trace = st.trace ++ TS.tr9 := by
  simp [TS.step9, TS.tr9]

theorem TS.step10_trace (w : TS.World) (o : BackupOptions) (st : TS.RunState) :
    (TS.step10 w o st).trace = st.trace ++ TS.tr10 w o := by
  cases hs : o.zipOutput <;> cases hc : w.zipRes <;>
    simp [TS.step10, TS.tr10, hs, hc]

/-- Errors of a whole TypeScript run decompose into the per-step
segments. -/
theorem TS.performBackup_errors (w : TS.World) (o : BackupOptions) (d t : String) :
    (TS.performBackup w o d t).1.errors = TS.allErrs w o := by
  simp only [TS.performBackup]
  rw [TS.step10_errors, TS.step9_errors, TS.step8_errors, TS.step7_errors,
      TS.step6_errors, TS.step5_errors, TS.step4_errors, TS.step3_errors,
      TS.step2_errors, TS.step1_errors]
  simp [TS.allErrs, TS.errsPreZip]

/-- Trace of a whole TypeScript run decomposes into the per-step
segments. -/
theorem TS.performBackup_trace (w : TS.World) (o : BackupOptions) (d t : String) :
    (TS.performBackup w o d t).2 = TS.traceAll w o := by
  simp only [TS.performBackup]
  rw [TS.step10_trace, TS.step9_trace, TS.step8_trace, TS.step7_trace,
      TS.step6_trace, TS.step5_trace, TS.step4_trace, TS.step3_trace,
      TS.step2_trace, TS.step1_trace]
  simp [TS.traceAll]

/-- The success flag of a TypeScript run is computed from the final error
list. -/
theorem TS.performBackup_success (w : TS.World) (o : BackupOptions) (d t : String) :
    (TS.performBackup w o d t).1.success
      = ((TS.performBackup w o d t).1.errors.length == 0) := rfl

/-- The reported output path of a TypeScript run is always the directory
path. -/
theorem TS.performBackup_outputPath (w : TS.World) (o : BackupOptions) (d t : String) :
    (TS.performBackup w o d t).1.outputPath = d ++ "/backup_" ++ t := rfl

end Totem

/-! ## Step lemmas for the Go orchestrator. -/

namespace Totem

theorem Go.g1_errors (w : Go.World) (st : Go.St) :
    (Go.g1 w st).errors = st.errors ++ Go.gerr1 w := by
  cases hs : w.screenshotsExists <;> cases hc : w.copyScreenshotsRes <;>
    simp [Go.g1, Go.gerr1, hs, hc]

theorem Go.g2_errors (w : Go.World) (st : Go.St) :
    (Go.g2 w st).errors = st.errors := by
  cases hs : w.modsExists <;> cases hc : w.listModsRes <;>
    simp [Go.g2, hs, hc]

theorem Go.g3_errors (w : Go.World) (st : Go.St) :
    (Go.g3 w st).errors = st.errors := by
  cases hs : w.shadersExists <;> cases hc : w.readShadersRes <;>
    simp [Go.g3, hs, hc]

theorem Go.g4_errors (w : Go.World) (st : Go.St) :
    (Go.g4 w st).errors = st.errors := by
  cases hs : w.resourcepacksExists <;> cases hc : w.listPacksRes <;>
    simp [Go.g4, hs, hc]

theorem Go.g5_errors (w : Go.World) (st : Go.St) :
    (Go.g5 w st).errors = st.errors := by
  cases hs : w.optionsExists <;> cases hc : w.copyOptionsRes <;>
    simp [Go.g5, hs, hc]

theorem Go.g6_errors (w : Go.World) (cfg : Go.Config) (st : Go.St) :
    (Go.g6 w cfg st).errors = st.errors ++ Go.gerr6 w cfg := by
  cases hs : cfg.includeSaves && w.savesExists <;> cases hc : w.copySavesRes <;>
    simp [Go.g6, Go.gerr6, hs, hc]

theorem Go.g7_errors (w : Go.World) (cfg : Go.Config) (st : Go.St) :
    (Go.g7 w cfg st).errors = st.errors ++ Go.gerr7 w cfg := by
  cases hs : cfg.includeXaero && w.xaeroExists <;> cases hc : w.copyXaeroRes <;>
    simp [Go.g7, Go.gerr7, hs, hc]

theorem Go.g8_errors (w : Go.World) (cfg : Go.Config) (st : Go.St) :
    (Go.g8 w cfg st).errors = st.errors ++ Go.gerr8 w cfg := by
  cases hs : cfg.includeDH && w.dhExists <;> cases hc : w.copyDHRes <;>
    simp [Go.g8, Go.gerr8, hs, hc]

theorem Go.g9_errors (bp : String) (st : Go.St) :
    (Go.g9 bp st).errors = st.errors := by
  simp [Go.g9]

theorem Go.g10_errors (w : Go.World) (cfg : Go.Config) (bp : String) (st : Go.St) :
    (Go.g10 w cfg bp st).errors = st.errors ++ Go.gerr10 w cfg := by
  cases hs : cfg.zipOutput <;> cases hc : w.zipRes <;>
    simp [Go.g10, Go.gerr10, hs, hc]

theorem Go.g11_errors (cfg : Go.Config) (st : Go.St) :
    (Go.g11 cfg st).errors = st.errors := by
  cases hs : cfg.openWhenDone <;> simp [Go.g11, hs]

theorem Go.g1_trace (w : Go.World) (st : Go.St) :
    (Go.g1 w st).trace = st.trace ++ Go.gtr1 w := by
  cases hs : w.screenshotsExists <;> cases hc : w.copyScreenshotsRes <;>
    simp [Go.g1, Go.gtr1, hs, hc]

theorem Go.g2_trace (w : Go.World) (st : Go.St) :
    (Go.g2 w st).trace = st.trace ++ Go.gtr2 w := by
  cases hs : w.modsExists <;> cases hc : w.listModsRes <;>
    simp [Go.g2, Go.gtr2, hs, hc]

theorem Go.g3_trace (w : Go.World) (st : Go.St) :
    (Go.g3 w st).trace = st.trace ++ Go.gtr3 w := by
  cases hs : w.shadersExists <;> cases hc : w.readShadersRes <;>
    simp [Go.g3, Go.gtr3, hs, hc]

theorem Go.g4_trace (w : Go.World) (st : Go.St) :
    (Go.g4 w st).trace = st.trace ++ Go.gtr4 w := by
  cases hs : w.resourcepacksExists <;> cases hc : w.listPacksRes <;>
    simp [Go.g4, Go.gtr4, hs, hc]

theorem Go.g5_trace (w : Go.World) (st : Go.St) :
    (Go.g5 w st).trace = st.trace ++ Go.gtr5 w := by
  cases hs : w.optionsExists <;> cases hc : w.copyOptionsRes <;>
    simp [Go.g5, Go.gtr5, hs, hc]

theorem Go.g6_trace (w : Go.World) (cfg : Go.Config) (st : Go.St) :
    (Go.g6 w cfg st).trace = st.trace ++ Go.gtr6 w cfg := by
  cases hs : cfg.includeSaves && w.savesExists <;> cases hc : w.copySavesRes <;>
    simp [Go.g6, Go.gtr6, hs, hc]

theorem Go.g7_trace (w : Go.World) (cfg : Go.Config) (st : Go.St) :
    (Go.g7 w cfg st).trace = st.trace ++ Go.gtr7 w cfg := by
  cases hs : cfg.includeXaero && w.xaeroExists <;> cases hc : w.copyXaeroRes <;>
    simp [Go.g7, Go.gtr7, hs, hc]

theorem Go.g8_trace (w : Go.World) (cfg : Go.Config) (st : Go.St) :
    (Go.g8 w cfg st).trace = st.trace ++ Go.gtr8 w cfg := by
  cases hs : cfg.includeDH && w.dhExists <;> cases hc : w.copyDHRes <;>
    simp [Go.g8, Go.gtr8, hs, hc]

theorem Go.g9_trace (bp : String) (st : Go.St) :
    (Go.g9 bp st).trace = st.trace ++ Go.gtr9 := by
  simp [Go.g9, Go.gtr9]

theorem Go.g10_trace (w : Go.World) (cfg : Go.Config) (bp : String) (st : Go.St) :
    (Go.g10 w cfg bp st).trace = st.trace ++ Go.gtr10 w cfg := by
  cases hs : cfg.zipOutput <;> cases hc : w.zipRes <;>
    simp [Go.g10, Go.gtr10, hs, hc]

theorem Go.g11_trace (cfg : Go.Config) (st : Go.St) :
    (Go.g11 cfg st).trace
      = st.trace ++ (if cfg.openWhenDone then [Action.openedFolder st.outputPath] else []) := by
  cases hs : cfg.openWhenDone <;> simp [Go.g11, hs]

theorem Go.g1_outputPath (w : Go.World) (st : Go.St) :
    (Go.g1 w st).outputPath = st.outputPath := by
  cases hs : w.screenshotsExists <;> cases hc : w.copyScreenshotsRes <;>
    simp [Go.g1, hs, hc]

theorem Go.g2_outputPath (w : Go.World) (st : Go.St) :
    (Go.g2 w st).outputPath = st.outputPath := by
  cases hs : w.modsExists <;> cases hc : w.listModsRes <;> simp [Go.g2, hs, hc]

theorem Go.g3_outputPath (w : Go.World) (st : Go.St) :
    (Go.g3 w st).outputPath = st.outputPath := by
  cases hs : w.shadersExists <;> cases hc : w.readShadersRes <;> simp [Go.g3, hs, hc]

theorem Go.g4_outputPath (w : Go.World) (st : Go.St) :
    (Go.g4 w st).outputPath = st.outputPath := by
  cases hs : w.resourcepacksExists <;> cases hc : w.listPacksRes <;> simp [Go.g4, hs, hc]

theorem Go.g5_outputPath (w : Go.World) (st : Go.St) :
    (Go.g5 w st).outputPath = st.outputPath := by
  cases hs : w.optionsExists <;> cases hc : w.copyOptionsRes <;> simp [Go.g5, hs, hc]

theorem Go.g6_outputPath (w : Go.World) (cfg : Go.Config) (st : Go.St) :
    (Go.g6 w cfg st).outputPath = st.outputPath := by
  cases hs : cfg.includeSaves && w.savesExists <;> cases hc : w.copySavesRes <;>
    simp [Go.g6, hs, hc]

theorem Go.g7_outputPath (w : Go.World) (cfg : Go.Config) (st : Go.St) :
    (Go.g7 w cfg st).outputPath = st.outputPath := by
  cases hs : cfg.includeXaero && w.xaeroExists <;> cases hc : w.copyXaeroRes <;>
    simp [Go.g7, hs, hc]

theorem Go.g8_outputPath (w : Go.World) (cfg : Go.Config) (st : Go.St) :
    (Go.g8 w cfg st).outputPath = st.outputPath := by
  cases hs : cfg.includeDH && w.dhExists <;> cases hc : w.copyDHRes <;>
    simp [Go.g8, hs, hc]

theorem Go.g9_outputPath (bp : String) (st : Go.St) :
    (Go.g9 bp st).outputPath = bp := by
  simp [Go.g9]

theorem Go.g10_outputPath (w : Go.World) (cfg : Go.Config) (bp : String) (st : Go.St)
    (h : st.outputPath = bp) :
    (Go.g10 w cfg bp st).outputPath = Go.goOutPath w cfg bp := by
  cases hs : cfg.zipOutput <;> cases hc : w.zipRes <;>
    simp [Go.g10, Go.goOutPath, exOk, hs, hc, h]

theorem Go.g11_outputPath (cfg : Go.Config) (st : Go.St) :
    (Go.g11 cfg st).outputPath = st.outputPath := by
  cases hs : cfg.openWhenDone <;> simp [Go.g11, hs]

/-- Errors of a Go run past the fatal checks decompose into the copy-step
and zip segments; the listing steps and the options copy contribute
nothing even when they fail. -/
theorem Go.goPre_errors (w : Go.World) (cfg : Go.Config) (bp : String) :
    (Go.goPre w cfg bp).errors = Go.gAllErrs w cfg := by
  simp only [Go.goPre]
  rw [Go.g10_errors, Go.g9_errors, Go.g8_errors, Go.g7_errors, Go.g6_errors,
      Go.g5_errors, Go.g4_errors, Go.g3_errors, Go.g2_errors, Go.g1_errors]
  simp [Go.gAllErrs, Go.gerrsPreZip]

/-- Output path of a Go run after the zip step. -/
theorem Go.goPre_outputPath (w : Go.World) (cfg : Go.Config) (bp : String) :
    (Go.goPre w cfg bp).outputPath = Go.goOutPath w cfg bp := by
  simp only [Go.goPre]
  rw [Go.g10_outputPath]
  rw [Go.g9_outputPath]

/-- Trace of a Go run after the zip step. -/
theorem Go.goPre_trace (w : Go.World) (cfg : Go.Config) (bp : String) :
    (Go.goPre w cfg bp).trace
      = Action.mkdirOut :: (Go.gtr1 w ++ (Go.gtr2 w ++ (Go.gtr3 w ++ (Go.gtr4 w
          ++ (Go.gtr5 w ++ (Go.gtr6 w cfg ++ (Go.gtr7 w cfg ++ (Go.gtr8 w cfg
          ++ (Go.gtr9 ++ Go.gtr10 w cfg))))))))) := by
  simp only [Go.goPre]
  rw [Go.g10_trace, Go.g9_trace, Go.g8_trace, Go.g7_trace, Go.g6_trace,
      Go.g5_trace, Go.g4_trace, Go.g3_trace, Go.g2_trace, Go.g1_trace]
  simp

theorem Go.goFinal_errors (w : Go.World) (cfg : Go.Config) (bp : String) :
    (Go.goFinal w cfg bp).errors = Go.gAllErrs w cfg := by
  rw [Go.goFinal, Go.g11_errors, Go.goPre_errors]

theorem Go.goFinal_outputPath (w : Go.World) (cfg : Go.Config) (bp : String) :
    (Go.goFinal w cfg bp).outputPath = Go.goOutPath w cfg bp := by
  rw [Go.goFinal, Go.g11_outputPath, Go.goPre_outputPath]

theorem Go.goFinal_trace (w : Go.World) (cfg : Go.Config) (bp : String) :
    (Go.goFinal w cfg bp).trace = Go.gTraceAll w cfg bp := by
  rw [Go.goFinal, Go.g11_trace, Go.goPre_trace, Go.goPre_outputPath]
  simp [Go.gTraceAll, Go.gtr11]

/-- A Go run whose root exists and whose output directory was created
returns the assembled result and the full trace. -/
theorem Go.perform_eq (w : Go.World) (cfg : Go.Config) (t : String)
    (hroot : w.rootExists = true) (hmk : w.mkdirRes = Except.ok ()) :
    Go.perform w cfg t
      = (Except.ok (Go.finalResult w cfg (cfg.backupDest ++ "/backup_" ++ t)),
         (Go.goFinal w cfg (cfg.backupDest ++ "/backup_" ++ t)).trace) := by
  rw [Go.perform, hroot, hmk]
  simp [Go.finalResult, Go.goFinal, Go.goPre]

end Totem

/-! ## Error counting: each failing step contributes exactly its one
error string. -/

namespace Totem

theorem exOk_ok {α : Type} (x : α) : exOk (Except.ok x) = true := rfl

theorem exOk_error {α : Type} (e : String) : exOk (Except.error e : Except String α) = false := rfl

theorem TS.copyConfigsLoop_none (f : String → Except String Unit) (l : List String) :
    ((TS.copyConfigsLoop f l).2 = none) ↔ (l.all (fun c => exOk (f c)) = true) := by
  induction l with
  | nil => simp [TS.copyConfigsLoop]
  | cons c rest ih =>
      cases hf : f c <;> simp [TS.copyConfigsLoop, hf, exOk, ih]

theorem TS.err1_length (w : TS.World) :
    (TS.err1 w).length = (w.screenshotsExists && !(exOk w.copyScreenshotsRes)).toNat := by
  cases hs : w.screenshotsExists <;> cases hc : w.copyScreenshotsRes <;>
    simp [TS.err1, exOk, hs, hc]

theorem TS.err2_length (w : TS.World) :
    (TS.err2 w).length = (w.modsExists && !(exOk w.writeModsRes)).toNat := by
  cases hs : w.modsExists <;> cases hc : w.writeModsRes <;>
    simp [TS.err2, exOk, hs, hc]

theorem TS.err3_length (w : TS.World) :
    (TS.err3 w).length
      = (w.shadersExists && (!(exOk w.writeShadersRes)
          || !((TS.splitShaders w.shaderFiles w.shaderDirs).2.all
                (fun c => exOk (w.copyConfigRes c))))).toNat := by
  have hA := TS.copyConfigsLoop_none w.copyConfigRes
    (TS.splitShaders w.shaderFiles w.shaderDirs).2
  cases hs : w.shadersExists <;> cases hw : w.writeShadersRes
  · simp [TS.err3, hs]
  · simp [TS.err3, hs]
  · simp [TS.err3, exOk, hs, hw]
  · cases hl : (TS.copyConfigsLoop w.copyConfigRes
        (TS.splitShaders w.shaderFiles w.shaderDirs).2).2 <;> rw [hl] at hA
    · have hAt := hA.mp rfl
      simp [TS.err3, hs, hw, hl, hAt, exOk_ok]
    · have hAf : (TS.splitShaders w.shaderFiles w.shaderDirs).2.all
          (fun c => exOk (w.copyConfigRes c)) = false := by
        cases hab : (TS.splitShaders w.shaderFiles w.shaderDirs).2.all
            (fun c => exOk (w.copyConfigRes c))
        · rfl
        · exact absurd (hA.mpr hab) (by simp)
      simp [TS.err3, hs, hw, hl, hAf, exOk_ok]

theorem TS.err4_length (w : TS.World) :
    (TS.err4 w).length = (w.resourcepacksExists && !(exOk w.writePacksRes)).toNat := by
  cases hs : w.resourcepacksExists <;> cases hc : w.writePacksRes <;>
    simp [TS.err4, exOk, hs, hc]

theorem TS.err5_length (w : TS.World) :
    (TS.err5 w).length = (w.optionsExists && !(exOk w.copyOptionsRes)).toNat := by
  cases hs : w.optionsExists <;> cases hc : w.copyOptionsRes <;>
    simp [TS.err5, exOk, hs, hc]

theorem TS.err6_length (w : TS.World) (o : BackupOptions) :
    (TS.err6 w o).length
      = (o.includeSaves && w.savesExists && !(exOk w.copySavesRes)).toNat := by
  cases hs : o.includeSaves && w.savesExists <;> cases hc : w.copySavesRes <;>
    simp [TS.err6, exOk, hs, hc]

theorem TS.err7_length (w : TS.World) (o : BackupOptions) :
    (TS.err7 w o).length
      = (o.includeXaero && w.xaeroExists && !(exOk w.copyXaeroRes)).toNat := by
  cases hs : o.includeXaero && w.xaeroExists <;> cases hc : w.copyXaeroRes <;>
    simp [TS.err7, exOk, hs, hc]

theorem TS.err8_length (w : TS.World) (o : BackupOptions) :
    (TS.err8 w o).length
      = (o.includeDH && w.dhExists && !(exOk w.copyDHRes)).toNat := by
  cases hs : o.includeDH && w.dhExists <;> cases hc : w.copyDHRes <;>
    simp [TS.err8, exOk, hs, hc]

theorem TS.err10_length (w : TS.World) (o : BackupOptions) :
    (TS.err10 w o).length = (o.zipOutput && !(exOk w.zipRes)).toNat := by
  cases hs : o.zipOutput <;> cases hc : w.zipRes <;>
    simp [TS.err10, exOk, hs, hc]

/-- Length of the error list of a TypeScript run equals the number of
failing steps. -/
theorem TS.allErrs_length (w : TS.World) (o : BackupOptions) :
    (TS.allErrs w o).length = TS.failTally w o := by
  simp only [TS.allErrs, TS.errsPreZip, List.length_append, TS.err1_length,
    TS.err2_length, TS.err3_length, TS.err4_length, TS.err5_length,
    TS.err6_length, TS.err7_length, TS.err8_length, TS.err10_length,
    TS.failTally]
  omega

theorem Go.gerr1_length (w : Go.World) :
    (Go.gerr1 w).length = (w.screenshotsExists && !(exOk w.copyScreenshotsRes)).toNat := by
  cases hs : w.screenshotsExists <;> cases hc : w.copyScreenshotsRes <;>
    simp [Go.gerr1, exOk, hs, hc]

theorem Go.gerr6_length (w : Go.World) (cfg : Go.Config) :
    (Go.gerr6 w cfg).length
      = (cfg.includeSaves && w.savesExists && !(exOk w.copySavesRes)).toNat := by
  cases hs : cfg.includeSaves && w.savesExists <;> cases hc : w.copySavesRes <;>
    simp [Go.gerr6, exOk, hs, hc]

theorem Go.gerr7_length (w : Go.World) (cfg : Go.Config) :
    (Go.gerr7 w cfg).length
      = (cfg.includeXaero && w.xaeroExists && !(exOk w.copyXaeroRes)).toNat := by
  cases hs : cfg.includeXaero && w.xaeroExists <;> cases hc : w.copyXaeroRes <;>
    simp [Go.gerr7, exOk, hs, hc]

theorem Go.gerr8_length (w : Go.World) (cfg : Go.Config) :
    (Go.gerr8 w cfg).length
      = (cfg.includeDH && w.dhExists && !(exOk w.copyDHRes)).toNat := by
  cases hs : cfg.includeDH && w.dhExists <;> cases hc : w.copyDHRes <;>
    simp [Go.gerr8, exOk, hs, hc]

theorem Go.gerr10_length (w : Go.World) (cfg : Go.Config) :
    (Go.gerr10 w cfg).length = (cfg.zipOutput && !(exOk w.zipRes)).toNat := by
  cases hs : cfg.zipOutput <;> cases hc : w.zipRes <;>
    simp [Go.gerr10, exOk, hs, hc]

/-- Length of the error list of a Go run equals the number of failing
copy or zip steps. -/
theorem Go.gAllErrs_length (w : Go.World) (cfg : Go.Config) :
    (Go.gAllErrs w cfg).length = Go.copyFailTally w cfg := by
  simp only [Go.gAllErrs, Go.gerrsPreZip, List.length_append, Go.gerr1_length,
    Go.gerr6_length, Go.gerr7_length, Go.gerr8_length, Go.gerr10_length,
    Go.copyFailTally]
  omega

end Totem

/-! ## Claim C1 -/

namespace Totem

/-- C1 counterexample: the claim says every failing step appends exactly
one error string, but in the Go implementation a failing catalog step
appends none — here reading the mods directory fails, yet the run
reports zero errors and success = true. -/
theorem claim_C1_counterexample :
    gwModsFail.modsExists = true
    ∧ gwModsFail.listModsRes = Except.error "permission denied"
    ∧ (Go.perform gwModsFail cfgPlain "T").1.map
        (fun r => (r.errors, r.success)) = Except.ok ([], true) := by
  refine ⟨rfl, rfl, ?_⟩
  rfl

/-- C1 (amended): in every run that gets past the fatal checks, no step's
failure prevents any later step from running (every step marker appears
in the trace), the manifest is always written, and the success flag is
the emptiness of the error log evaluated once at the very end.  In the
TypeScript implementation every failing step appends exactly one error
string, so the error count equals the number of failing steps; in the Go
implementation only a failing copy step (screenshots, saves, xaero,
Distant Horizons) or the zip step appends its one error string, while
failures of the three listing steps and of the options-file copy are
silently swallowed. -/
theorem claim_C1_amended (w : TS.World) (o : BackupOptions) (d t ts : String)
    (g : Go.World) (gc : Go.Config)
    (hroot : g.rootExists = true) (hmk : g.mkdirRes = Except.ok ()) :
    ((TS.performBackup w o d t).1.errors.length = TS.failTally w o
      ∧ (TS.performBackup w o d t).1.success
          = ((TS.performBackup w o d t).1.errors.length == 0)
      ∧ Action.wroteInfo ∈ (TS.performBackup w o d t).2
      ∧ (∀ k, 1 ≤ k → k ≤ 10 → Action.step k ∈ (TS.performBackup w o d t).2))
    ∧ ((Go.perform g gc ts).1.map Go.Result.errors = Except.ok (Go.gAllErrs g gc)
      ∧ (Go.gAllErrs g gc).length = Go.copyFailTally g gc
      ∧ (Go.perform g gc ts).1.map Go.Result.success
          = Except.ok ((Go.gAllErrs g gc).length == 0)
      ∧ Action.wroteInfo ∈ (Go.perform g gc ts).2
      ∧ (∀ k, 1 ≤ k → k ≤ 10 → Action.step k ∈ (Go.perform g gc ts).2)) := by
  refine ⟨⟨?_, ?_, ?_, ?_⟩, ?_, ?_, ?_, ?_, ?_⟩
  · rw [TS.performBackup_errors, TS.allErrs_length]
  · exact TS.performBackup_success w o d t
  · rw [TS.performBackup_trace]
    simp [TS.traceAll, TS.tr9]
  · intro k h1 h2
    rw [TS.performBackup_trace]
    interval_cases k <;>
      simp [TS.traceAll, TS.tr1, TS.tr2, TS.tr3, TS.tr4, TS.tr5, TS.tr6,
        TS.tr7, TS.tr8, TS.tr9, TS.tr10]
  · rw [Go.perform_eq g gc ts hroot hmk]
    simp [Except.map, Go.finalResult, Go.goFinal_errors]
  · exact Go.gAllErrs_length g gc
  · rw [Go.perform_eq g gc ts hroot hmk]
    simp [Except.map, Go.finalResult, Go.goFinal_errors]
  · rw [Go.perform_eq g gc ts hroot hmk]
    simp [Go.goFinal_trace, Go.gTraceAll, Go.gtr9]
  · intro k h1 h2
    rw [Go.perform_eq g gc ts hroot hmk]
    interval_cases k <;>
      simp [Go.goFinal_trace, Go.gTraceAll, Go.gtr1, Go.gtr2, Go.gtr3,
        Go.gtr4, Go.gtr5, Go.gtr6, Go.gtr7, Go.gtr8, Go.gtr9, Go.gtr10]

/-- C1 witness: the amended claim applied to a TypeScript run whose
screenshot copy fails (one failing step, one error) and to a quiet Go
run. -/
theorem claim_C1_witness :
    ((TS.performBackup twShotsFail optsNone "d" "t").1.errors.length
        = TS.failTally twShotsFail optsNone
      ∧ TS.failTally twShotsFail optsNone = 1)
    ∧ Action.wroteInfo ∈ (Go.perform gwQuiet cfgPlain "t").2 :=
  ⟨⟨(claim_C1_amended twShotsFail optsNone "d" "t" "t" gwQuiet cfgPlain rfl rfl).1.1,
    by decide⟩,
   (claim_C1_amended twShotsFail optsNone "d" "t" "t" gwQuiet cfgPlain rfl rfl).2.2.2.2.1⟩

end Totem

/-! ## Claim C2: only a successful zip removes the uncompressed output
directory. -/

namespace Totem

theorem TS.rm_tr1 (w : TS.World) : Action.removedDir ∉ TS.tr1 w := by
  cases hs : w.screenshotsExists <;> cases hc : w.copyScreenshotsRes <;>
    simp [TS.tr1, hs, hc]

theorem TS.rm_tr2 (w : TS.World) : Action.removedDir ∉ TS.tr2 w := by
  cases hs : w.modsExists <;> cases hc : w.writeModsRes <;> simp [TS.tr2, hs, hc]

theorem TS.rm_tr3 (w : TS.World) : Action.removedDir ∉ TS.tr3 w := by
  cases hs : w.shadersExists <;> cases hc : w.writeShadersRes <;>
    simp [TS.tr3, hs, hc]
  intro h
  have h2 := List.take_subset _ _ h
  simp at h2

theorem TS.rm_tr4 (w : TS.World) : Action.removedDir ∉ TS.tr4 w := by
  cases hs : w.resourcepacksExists <;> cases hc : w.writePacksRes <;>
    simp [TS.tr4, hs, hc]

theorem TS.rm_tr5 (w : TS.World) : Action.removedDir ∉ TS.tr5 w := by
  cases hs : w.optionsExists <;> cases hc : w.copyOptionsRes <;>
    simp [TS.tr5, hs, hc]

theorem TS.rm_tr6 (w : TS.World) (o : BackupOptions) : Action.removedDir ∉ TS.tr6 w o := by
  cases hs : o.includeSaves && w.savesExists <;> cases hc : w.copySavesRes <;>
    simp [TS.tr6, hs, hc]

theorem TS.rm_tr7 (w : TS.World) (o : BackupOptions) : Action.removedDir ∉ TS.tr7 w o := by
  cases hs : o.includeXaero && w.xaeroExists <;> cases hc : w.copyXaeroRes <;>
    simp [TS.tr7, hs, hc]

theorem TS.rm_tr8 (w : TS.World) (o : BackupOptions) : Action.removedDir ∉ TS.tr8 w o := by
  cases hs : o.includeDH && w.dhExists <;> cases hc : w.copyDHRes <;>
    simp [TS.tr8, hs, hc]

theorem TS.rm_tr9 : Action.removedDir ∉ TS.tr9 := by
  simp [TS.tr9]

theorem Go.rm_gtr1 (w : Go.World) : Action.removedDir ∉ Go.gtr1 w := by
  cases hs : w.screenshotsExists <;> cases hc : w.copyScreenshotsRes <;>
    simp [Go.gtr1, hs, hc]

theorem Go.rm_gtr2 (w : Go.World) : Action.removedDir ∉ Go.gtr2 w := by
  cases hs : w.modsExists <;> cases hc : w.listModsRes <;> simp [Go.gtr2, hs, hc]

theorem Go.rm_gtr3 (w : Go.World) : Action.removedDir ∉ Go.gtr3 w := by
  cases hs : w.shadersExists <;> cases hc : w.readShadersRes <;>
    simp [Go.gtr3, hs, hc]

theorem Go.rm_gtr4 (w : Go.World) : Action.removedDir ∉ Go.gtr4 w := by
  cases hs : w.resourcepacksExists <;> cases hc : w.listPacksRes <;>
    simp [Go.gtr4, hs, hc]

theorem Go.rm_gtr5 (w : Go.World) : Action.removedDir ∉ Go.gtr5 w := by
  cases hs : w.optionsExists <;> cases hc : w.copyOptionsRes <;>
    simp [Go.gtr5, hs, hc]

theorem Go.rm_gtr6 (w : Go.World) (cfg : Go.Config) : Action.removedDir ∉ Go.gtr6 w cfg := by
  cases hs : cfg.includeSaves && w.savesExists <;> cases hc : w.copySavesRes <;>
    simp [Go.gtr6, hs, hc]

theorem Go.rm_gtr7 (w : Go.World) (cfg : Go.Config) : Action.removedDir ∉ Go.gtr7 w cfg := by
  cases hs : cfg.includeXaero && w.xaeroExists <;> cases hc : w.copyXaeroRes <;>
    simp [Go.gtr7, hs, hc]

theorem Go.rm_gtr8 (w : Go.World) (cfg : Go.Config) : Action.removedDir ∉ Go.gtr8 w cfg := by
  cases hs : cfg.includeDH && w.dhExists <;> cases hc : w.copyDHRes <;>
    simp [Go.gtr8, hs, hc]

theorem Go.rm_gtr9 : Action.removedDir ∉ Go.gtr9 := by
  simp [Go.gtr9]

theorem Go.rm_gtr11 (w : Go.World) (cfg : Go.Config) (bp : String) :
    Action.removedDir ∉ Go.gtr11 w cfg bp := by
  cases hs : cfg.openWhenDone <;> simp [Go.gtr11, hs]

/-- C2 counterexample: after a successful zip the TypeScript run has
removed the uncompressed directory, yet the result's output path is still
the directory path, which does not end in the archive extension. -/
theorem claim_C2_counterexample :
    optsZip.zipOutput = true
    ∧ twQuiet.zipRes = Except.ok ()
    ∧ Action.removedDir ∈ (TS.performBackup twQuiet optsZip "dest" "T").2
    ∧ (TS.performBackup twQuiet optsZip "dest" "T").1.outputPath = "dest/backup_T"
    ∧ (endsWithStr "dest/backup_T" ".zip") = false := by
  refine ⟨rfl, rfl, by decide, rfl, by decide⟩

/-- C2 (amended): with compression selected, a successful archive step
removes the uncompressed output directory in both implementations and a
failed archive step appends exactly one zip error and leaves the
directory in place in both; the result's output path becomes the archive
path (directory path plus ".zip") only in the Go implementation — the
TypeScript result's output path remains the directory path even when
archiving succeeded (its front-end appends the extension only for
display). -/
theorem claim_C2_amended (w : TS.World) (o : BackupOptions) (d t ts : String)
    (g : Go.World) (gc : Go.Config)
    (hz : o.zipOutput = true) (hgz : gc.zipOutput = true)
    (hroot : g.rootExists = true) (hmk : g.mkdirRes = Except.ok ()) :
    ((w.zipRes = Except.ok () →
        Action.removedDir ∈ (TS.performBackup w o d t).2
        ∧ (TS.performBackup w o d t).1.outputPath = d ++ "/backup_" ++ t)
     ∧ (∀ e, w.zipRes = Except.error e →
        Action.removedDir ∉ (TS.performBackup w o d t).2
        ∧ (TS.performBackup w o d t).1.errors
            = TS.errsPreZip w o ++ ["Failed to create zip: " ++ e]
        ∧ (TS.performBackup w o d t).1.outputPath = d ++ "/backup_" ++ t))
    ∧ ((g.zipRes = Except.ok () →
        (Go.perform g gc ts).1.map Go.Result.outputPath
          = Except.ok (gc.backupDest ++ "/backup_" ++ ts ++ ".zip")
        ∧ Action.removedDir ∈ (Go.perform g gc ts).2)
     ∧ (∀ e, g.zipRes = Except.error e →
        (Go.perform g gc ts).1.map Go.Result.outputPath
          = Except.ok (gc.backupDest ++ "/backup_" ++ ts)
        ∧ Action.removedDir ∉ (Go.perform g gc ts).2
        ∧ (Go.perform g gc ts).1.map Go.Result.errors
            = Except.ok (Go.gerrsPreZip g gc ++ ["zip: " ++ e]))) := by
  refine ⟨⟨?_, ?_⟩, ?_, ?_⟩
  · intro hok
    refine ⟨?_, rfl⟩
    rw [TS.performBackup_trace]
    simp [TS.traceAll, TS.tr10, hz, hok]
  · intro e he
    refine ⟨?_, ?_, rfl⟩
    · rw [TS.performBackup_trace]
      simp [TS.traceAll, TS.tr10, hz, he, TS.rm_tr1 w, TS.rm_tr2 w, TS.rm_tr3 w,
        TS.rm_tr4 w, TS.rm_tr5 w, TS.rm_tr6 w o, TS.rm_tr7 w o, TS.rm_tr8 w o,
        TS.rm_tr9]
    · rw [TS.performBackup_errors]
      simp [TS.allErrs, TS.err10, hz, he]
  · intro hok
    constructor
    · rw [Go.perform_eq g gc ts hroot hmk]
      simp [Except.map, Go.finalResult, Go.goFinal_outputPath, Go.goOutPath,
        hgz, hok, exOk_ok]
    · rw [Go.perform_eq g gc ts hroot hmk]
      simp [Go.goFinal_trace, Go.gTraceAll, Go.gtr10, hgz, hok]
  · intro e he
    refine ⟨?_, ?_, ?_⟩
    · rw [Go.perform_eq g gc ts hroot hmk]
      simp [Except.map, Go.finalResult, Go.goFinal_outputPath, Go.goOutPath,
        hgz, he, exOk_error]
    · rw [Go.perform_eq g gc ts hroot hmk]
      simp [Go.goFinal_trace, Go.gTraceAll, Go.gtr10, hgz, he, Go.rm_gtr1 g,
        Go.rm_gtr2 g, Go.rm_gtr3 g, Go.rm_gtr4 g, Go.rm_gtr5 g, Go.rm_gtr6 g gc,
        Go.rm_gtr7 g gc, Go.rm_gtr8 g gc, Go.rm_gtr9, Go.rm_gtr11 g gc]
    · rw [Go.perform_eq g gc ts hroot hmk]
      simp [Except.map, Go.finalResult, Go.goFinal_errors, Go.gAllErrs,
        Go.gerr10, hgz, he]

/-- C2 witness: the amended claim applied to quiet runs with a
successful zip in both implementations. -/
theorem claim_C2_witness :
    Action.removedDir ∈ (TS.performBackup twQuiet optsZip "dest" "T").2
    ∧ (Go.perform gwQuiet cfgZip "T").1.map Go.Result.outputPath
        = Except.ok "dest/backup_T.zip" :=
  ⟨((claim_C2_amended twQuiet optsZip "dest" "T" "T" gwQuiet cfgZip
      rfl rfl rfl rfl).1.1 rfl).1,
   ((claim_C2_amended twQuiet optsZip "dest" "T" "T" gwQuiet cfgZip
      rfl rfl rfl rfl).2.1 rfl).1⟩

end Totem

/-! ## Claims C3, C4 and C6 -/

namespace Totem

/-- C3: if the installation root does not exist, the run aborts with a
single explanatory error before any copy or catalog step runs and
creates nothing: the Go Perform returns only the error with an empty
effect trace, and the TypeScript pipeline fails validation with exactly
one root-missing error — only the root was probed, no marker check ran —
and never reaches performBackup. -/
theorem claim_C3 (g : Go.World) (gc : Go.Config) (ts : String)
    (vw : VWorld) (w : TS.World) (o : BackupOptions) (root dest t : String)
    (hg : g.rootExists = false) (hv : vw.rootExists = false) :
    Go.perform g gc ts
      = (Except.error ("minecraft path does not exist: " ++ gc.minecraftPath), [])
    ∧ TS.validateMinecraftPath vw root
      = ((false, ["Root path does not exist: " ++ root]), [root])
    ∧ TS.runPipeline vw w o root dest t
      = Except.error ["Root path does not exist: " ++ root] := by
  refine ⟨?_, ?_, ?_⟩
  · simp [Go.perform, hg]
  · simp [TS.validateMinecraftPath, hv]
  · simp [TS.runPipeline, TS.validateMinecraftPath, hv]

/-- C3 witness: the abort applied at concrete missing-root worlds. -/
theorem claim_C3_witness :
    Go.perform gwNoRoot cfgPlain "T"
      = (Except.error "minecraft path does not exist: mc", [])
    ∧ TS.validateMinecraftPath vwMissing "r"
      = ((false, ["Root path does not exist: r"]), ["r"]) :=
  ⟨(claim_C3 gwNoRoot cfgPlain "T" vwMissing twQuiet optsNone "r" "d" "T"
      rfl rfl).1,
   (claim_C3 gwNoRoot cfgPlain "T" vwMissing twQuiet optsNone "r" "d" "T"
      rfl rfl).2.1⟩

/-- C4: the Go Result.TotalFiles omits the copied shader configs,
contradicting the manifest total computed in the same run.  In a run
that copies exactly one shader config and nothing else, the result
reports TotalFiles = 0 while the manifest total and the claimed sum of
the per-category copied counts are both 1. -/
theorem claim_C4_code_divergence :
    (Go.perform gwConfigOnly cfgPlain "T").1.map
        (fun r => (r.totalFiles, r.stats.shaderConfigsCopied, Go.infoTotal r.stats,
          r.stats.screenshotsCopied + r.stats.shaderConfigsCopied
            + r.stats.savesCopied + r.stats.xaeroCopied
            + r.stats.distantHorizonsCopied))
      = Except.ok (0, 1, 1, 1) := by
  rfl

/-- C6: validate returns invalid with the single root-missing error and
probes only the root when the root is missing; returns invalid with the
error naming the three expected markers when the root exists but none of
the options file, mods directory or shaderpacks directory does; and
returns valid with an empty error list when at least one of the three
markers exists. -/
theorem claim_C6 (w : VWorld) (root : String) :
    (w.rootExists = false →
      TS.validateMinecraftPath w root
        = ((false, ["Root path does not exist: " ++ root]), [root]))
    ∧ (w.rootExists = true → w.optionsExists = false → w.modsExists = false →
        w.shadersExists = false →
      (TS.validateMinecraftPath w root).1.1 = false
      ∧ "Expected to find at least one of: options.txt, mods/, shaderpacks/"
          ∈ (TS.validateMinecraftPath w root).1.2)
    ∧ (w.rootExists = true →
        (w.optionsExists || w.modsExists || w.shadersExists) = true →
      TS.validateMinecraftPath w root
        = ((true, []),
           [root, root ++ "/options.txt", root ++ "/mods", root ++ "/shaderpacks"])) := by
  refine ⟨?_, ?_, ?_⟩
  · intro h
    simp [TS.validateMinecraftPath, h]
  · intro h1 h2 h3 h4
    simp [TS.validateMinecraftPath, h1, h2, h3, h4]
  · intro h1 h2
    cases ho : w.optionsExists <;> cases hm : w.modsExists <;>
      cases hs2 : w.shadersExists <;> simp_all [TS.validateMinecraftPath]

/-- C6 witness: the three validation verdicts at concrete worlds. -/
theorem claim_C6_witness :
    TS.validateMinecraftPath vwMissing "r"
      = ((false, ["Root path does not exist: r"]), ["r"])
    ∧ (TS.validateMinecraftPath vwEmpty "r").1.1 = false
    ∧ TS.validateMinecraftPath vwOptions "r"
      = ((true, []), ["r", "r/options.txt", "r/mods", "r/shaderpacks"]) :=
  ⟨(claim_C6 vwMissing "r").1 rfl,
   ((claim_C6 vwEmpty "r").2.1 rfl rfl rfl rfl).1,
   (claim_C6 vwOptions "r").2.2 rfl rfl⟩

end Totem

/-! ## Claim C5 -/

namespace Totem

/-- Filtering the names of the entries selected by q with p equals
selecting by both predicates first and naming afterwards. -/
theorem listFilterMapName (q : DirEntry → Bool) (p : String → Bool)
    (entries : List DirEntry) :
    ((entries.filter q).map (fun e => e.name)).filter p
      = (entries.filter (fun e => q e && p e.name)).map (fun e => e.name) := by
  induction entries with
  | nil => simp
  | cons e rest ih =>
      by_cases hq : q e = true <;> by_cases hp : p e.name = true <;>
        simp [hq, hp, List.filter_cons, ih]

/-- The TypeScript split over the files and directories of a listing
implements exactly the claimed classification rule. -/
theorem TS.splitShaders_spec (entries : List DirEntry) :
    TS.splitShaders ((entries.filter (fun e => !e.isDir)).map (fun e => e.name))
        ((entries.filter (fun e => e.isDir)).map (fun e => e.name))
      = splitShadersSpec entries := by
  simp only [TS.splitShaders, splitShadersSpec, Prod.mk.injEq]
  refine ⟨?_, ?_⟩
  · rw [listFilterMapName]
  · rw [listFilterMapName]

/-- The Go classification applies the suffix rule to every immediate
entry, directories included. -/
theorem Go.processShaderpacks_acc (entries : List DirEntry) (acc : List String × Nat) :
    entries.foldl
      (fun acc e =>
        if endsWithStr e.name ".txt" then (acc.1, acc.2 + 1)
        else (acc.1 ++ [e.name], acc.2))
      acc
      = (acc.1 ++ (entries.filter (fun e => !(endsWithStr e.name ".txt"))).map
          (fun e => e.name),
         acc.2 + (entries.filter (fun e => endsWithStr e.name ".txt")).length) := by
  induction entries generalizing acc with
  | nil => simp
  | cons e rest ih =>
      by_cases ht : endsWithStr e.name ".txt" = true <;>
        simp [ht, ih, List.filter_cons]
      omega

/-- The Go classification in closed form. -/
theorem Go.processShaderpacks_eq (entries : List DirEntry) :
    Go.processShaderpacks entries
      = ((entries.filter (fun e => !(endsWithStr e.name ".txt"))).map (fun e => e.name),
         (entries.filter (fun e => endsWithStr e.name ".txt")).length) := by
  have h := Go.processShaderpacks_acc entries ([], 0)
  simpa [Go.processShaderpacks] using h

/-- C5 counterexample: the claim says every immediate subdirectory is
catalogued regardless of its name, but the Go implementation routes a
subdirectory whose name ends in ".txt" to the config-copy branch: it is
counted as a copied config and omitted from the pack catalog. -/
theorem claim_C5_counterexample :
    entsTxtDir = [{ name := "Sildurs settings.txt", isDir := true }]
    ∧ Go.processShaderpacks entsTxtDir = ([], 1)
    ∧ splitShadersSpec entsTxtDir = (["Sildurs settings.txt"], []) :=
  ⟨rfl, by decide, by decide⟩

/-- C5 (amended): the TypeScript implementation classifies exactly as the
claim states — immediate files ending in ".txt" are copied as configs and
excluded from the catalog, every other file and every directory is
catalogued; the Go implementation instead applies the ".txt" suffix rule
to every immediate entry, so a subdirectory ending in ".txt" is counted
as a copied config instead of being catalogued.  In both, when the entry
names are distinct, no name appears both as a catalogued pack and as a
copied config. -/
theorem claim_C5_amended (entries : List DirEntry)
    (hnd : (entries.map (fun e => e.name)).Nodup) :
    (TS.splitShaders ((entries.filter (fun e => !e.isDir)).map (fun e => e.name))
        ((entries.filter (fun e => e.isDir)).map (fun e => e.name))
      = splitShadersSpec entries)
    ∧ (Go.processShaderpacks entries
      = ((entries.filter (fun e => !(endsWithStr e.name ".txt"))).map (fun e => e.name),
         (entries.filter (fun e => endsWithStr e.name ".txt")).length))
    ∧ (∀ n, n ∈ (splitShadersSpec entries).1 → n ∉ (splitShadersSpec entries).2)
    ∧ (∀ n, n ∈ (Go.processShaderpacks entries).1 → endsWithStr n ".txt" = false) := by
  refine ⟨TS.splitShaders_spec entries, Go.processShaderpacks_eq entries, ?_, ?_⟩
  · intro n h1 h2
    simp only [splitShadersSpec, List.mem_append, List.mem_map, List.mem_filter] at h1 h2
    obtain ⟨e2, ⟨he2, hp2⟩, hn2⟩ := h2
    have hinj := List.inj_on_of_nodup_map hnd
    rcases h1 with ⟨e1, ⟨he1, hp1⟩, hn1⟩ | ⟨e1, ⟨he1, hp1⟩, hn1⟩
    · have : e1 = e2 := hinj he1 he2 (hn1.trans hn2.symm)
      subst this
      simp_all
    · have : e1 = e2 := hinj he1 he2 (hn1.trans hn2.symm)
      subst this
      simp_all
  · intro n h
    rw [Go.processShaderpacks_eq] at h
    simp only [List.mem_map, List.mem_filter] at h
    obtain ⟨e, ⟨_, hp⟩, hn⟩ := h
    subst hn
    simpa using hp

/-- C5 witness: the amended claim applied to a listing with one pack
file, one config file and one pack directory. -/
theorem claim_C5_witness :
    TS.splitShaders ((entsMix.filter (fun e => !e.isDir)).map (fun e => e.name))
        ((entsMix.filter (fun e => e.isDir)).map (fun e => e.name))
      = splitShadersSpec entsMix
    ∧ splitShadersSpec entsMix
      = (["BSL_v8.2.zip", "ComplementaryShaders"], ["BSL_v8.2.txt"]) :=
  ⟨(claim_C5_amended entsMix (by decide)).1, by decide⟩

end Totem

/-! ## Claim C7 -/

namespace Totem

theorem lastGetD_cons {α : Type} (x d : α) (xs : List α) :
    ((x :: xs).getLast?).getD d = (xs.getLast?).getD x := by
  cases xs with
  | nil => rfl
  | cons y ys =>
      rw [List.getLast?_cons_cons,
          List.getLast?_eq_getLast_of_ne_nil (List.cons_ne_nil y ys)]
      rfl

/-- The Go instance.cfg line loop realises last-match-wins on the version
field. -/
theorem Go.cfgFold_version (i : MinecraftInfo) (lines : List String) :
    (Go.cfgFold i lines).version
      = (((lines.filter (fun l => startsWithStr l "IntendedVersion=")).map
          (fun l => trimStr (String.mk (l.data.drop 16)))).getLast?).getD i.version := by
  induction lines generalizing i with
  | nil => simp [Go.cfgFold]
  | cons l rest ih =>
      by_cases hp : startsWithStr l "IntendedVersion=" = true
      · have h1 : Go.cfgFold i (l :: rest)
            = Go.cfgFold { i with version := trimStr (String.mk (l.data.drop 16)) } rest := by
          simp [Go.cfgFold, hp]
        rw [h1, ih]
        simp [hp, List.filter_cons, lastGetD_cons]
      · have h1 : Go.cfgFold i (l :: rest) = Go.cfgFold i rest := by
          simp [Go.cfgFold, hp]
        rw [h1, ih]
        simp [hp, List.filter_cons]

/-- The Go instance.cfg line loop never touches the loader fields. -/
theorem Go.cfgFold_loader (i : MinecraftInfo) (lines : List String) :
    (Go.cfgFold i lines).loader = i.loader
    ∧ (Go.cfgFold i lines).loaderVersion = i.loaderVersion := by
  induction lines generalizing i with
  | nil => simp [Go.cfgFold]
  | cons l rest ih =>
      by_cases hp : startsWithStr l "IntendedVersion=" = true
      · have e1 : Go.cfgFold i (l :: rest)
            = Go.cfgFold { i with version := trimStr (String.mk (l.data.drop 16)) } rest := by
          simp [Go.cfgFold, hp]
        rw [e1]
        exact ih _
      · have e1 : Go.cfgFold i (l :: rest) = Go.cfgFold i rest := by
          simp [Go.cfgFold, hp]
        rw [e1]
        exact ih i

/-- The Go component loop realises last-match-wins on the version
field. -/
theorem Go.mmcFold_version (i : MinecraftInfo) (comps : List MMCComponent) :
    (Go.mmcFold i comps).version
      = (((comps.filter (fun c => c.uid == "net.minecraft")).map
            (fun c => c.version)).getLast?).getD i.version := by
  induction comps generalizing i with
  | nil => simp [Go.mmcFold]
  | cons c rest ih =>
      by_cases h1 : c.uid = "net.minecraft"
      · have e1 : Go.mmcFold i (c :: rest)
            = Go.mmcFold { i with version := c.version } rest := by
          simp [Go.mmcFold, h1]
        rw [e1, ih]
        simp [h1, List.filter_cons, lastGetD_cons]
      · by_cases h2 : c.uid = "net.fabricmc.fabric-loader"
        · have e1 : Go.mmcFold i (c :: rest)
              = Go.mmcFold { i with loader := "Fabric", loaderVersion := c.version } rest := by
            simp [Go.mmcFold, h1, h2]
          rw [e1, ih]
          simp [h1, List.filter_cons]
        · by_cases h3 : c.uid = "net.minecraftforge"
          · have e1 : Go.mmcFold i (c :: rest)
                = Go.mmcFold { i with loader := "Forge", loaderVersion := c.version } rest := by
              simp [Go.mmcFold, h1, h2, h3]
            rw [e1, ih]
            simp [h1, List.filter_cons]
          · have e1 : Go.mmcFold i (c :: rest) = Go.mmcFold i rest := by
              simp [Go.mmcFold, h1, h2, h3]
            rw [e1, ih]
            simp [h1, List.filter_cons]

/-- Version precedence of the Go inspector: the instance-config signal,
read last, wins over the manifest signal. -/
theorem Go.goVersion_eq (inp : InspectInput) :
    (Go.getMinecraftInfo inp).version
      = (orD (goCfgVersion inp) (goMmcVersion inp)).getD "Unknown" := by
  rcases hcfg : inp.instanceCfg with _ | lines <;>
    rcases hmmc : inp.mmcPack with _ | inner
  · simp [Go.getMinecraftInfo, goCfgVersion, goMmcVersion, orD, hcfg, hmmc]
  · rcases inner with _ | comps
    · simp [Go.getMinecraftInfo, goCfgVersion, goMmcVersion, orD, hcfg, hmmc]
    · simp only [Go.getMinecraftInfo, goCfgVersion, goMmcVersion, orD, hcfg, hmmc]
      rw [Go.mmcFold_version]
  · simp only [Go.getMinecraftInfo, goCfgVersion, goMmcVersion, orD, hcfg, hmmc]
    rw [Go.cfgFold_version]
    cases hL : ((lines.filter (fun l => startsWithStr l "IntendedVersion=")).map
        (fun l => trimStr (String.mk (l.data.drop 16)))).getLast? <;> simp [hL]
  · rcases inner with _ | comps
    · simp only [Go.getMinecraftInfo, goCfgVersion, goMmcVersion, orD, hcfg, hmmc]
      rw [Go.cfgFold_version]
      cases hL : ((lines.filter (fun l => startsWithStr l "IntendedVersion=")).map
          (fun l => trimStr (String.mk (l.data.drop 16)))).getLast? <;> simp [hL]
    · simp only [Go.getMinecraftInfo, goCfgVersion, goMmcVersion, orD, hcfg, hmmc]
      rw [Go.cfgFold_version, Go.mmcFold_version]
      cases hL : ((lines.filter (fun l => startsWithStr l "IntendedVersion=")).map
          (fun l => trimStr (String.mk (l.data.drop 16)))).getLast? <;>
        cases hM : ((comps.filter (fun c => c.uid == "net.minecraft")).map
            (fun c => c.version)).getLast? <;> simp [hL, hM]

/-- The fabric-loader component lookup never touches the version
field. -/
theorem TS.applyFabric_version (comps : List MMCComponent) (st : MinecraftInfo) :
    (TS.applyFabric comps st).version = st.version := by
  cases hG : comps.find? (fun c => c.uid == "net.fabricmc.fabric-loader") <;>
    simp [TS.applyFabric, hG]

/-- The minecraftforge component lookup never touches the version
field. -/
theorem TS.applyForge_version (comps : List MMCComponent) (st : MinecraftInfo) :
    (TS.applyForge comps st).version = st.version := by
  cases hH : comps.find? (fun c => c.uid == "net.minecraftforge") <;>
    simp [TS.applyForge, hH]

/-- The net.minecraft component lookup overwrites the version exactly
when it finds a component with a nonempty version. -/
theorem TS.applyMc_version (comps : List MMCComponent) (st : MinecraftInfo) :
    (TS.applyMc comps st).version
      = (match comps.find? (fun c => c.uid == "net.minecraft") with
         | some c => if c.version != "" then c.version else st.version
         | none => st.version) := by
  cases hF : comps.find? (fun c => c.uid == "net.minecraft")
  · simp [TS.applyMc, hF]
  · rename_i c
    by_cases hv : (c.version != "") = true <;> simp [TS.applyMc, hF, hv]

/-- Version precedence of the TypeScript inspector: the manifest signal,
read last, wins over the instance-config signal. -/
theorem TS.tsVersion_eq (inp : InspectInput) :
    (TS.getMinecraftInfo inp).version
      = (orD (tsMmcVersion inp) (tsCfgSignal inp)).getD "Unknown" := by
  have hst1 : ∀ lines,
      inp.instanceCfg = some lines →
      (orD none (tsCfgSignal inp)).getD "Unknown"
        = (tsCfgVersion lines).getD "Unknown" := by
    intro lines h
    simp [orD, tsCfgSignal, h]
  rcases hmmc : inp.mmcPack with _ | inner
  · rcases hcfg : inp.instanceCfg with _ | lines <;>
      simp [TS.getMinecraftInfo, tsMmcVersion, tsCfgSignal, orD, hcfg, hmmc]
  · rcases inner with _ | comps
    · rcases hcfg : inp.instanceCfg with _ | lines <;>
        simp [TS.getMinecraftInfo, tsMmcVersion, tsCfgSignal, orD, hcfg, hmmc]
    · simp only [TS.getMinecraftInfo, hmmc]
      rw [TS.applyForge_version, TS.applyFabric_version, TS.applyMc_version]
      cases hF : comps.find? (fun c => c.uid == "net.minecraft")
      · rcases hcfg : inp.instanceCfg with _ | lines <;>
          simp [tsMmcVersion, tsCfgSignal, orD, hcfg, hmmc, hF]
      · rename_i c
        by_cases hv : (c.version != "") = true
        · simp [tsMmcVersion, tsCfgSignal, orD, hmmc, hF, hv]
        · rcases hcfg : inp.instanceCfg with _ | lines <;>
            simp [tsMmcVersion, tsCfgSignal, orD, hcfg, hmmc, hF, hv]

end Totem

namespace Totem

/-- C7 counterexample: with both sidecar files present — the manifest
parseable with a "net.minecraft" component of version 1.20.1, the
instance config carrying IntendedVersion 1.19.2 — the Go inspector
returns the instance-config value, not the manifest component's version
as the claim states; the TypeScript inspector returns the manifest
version. -/
theorem claim_C7_counterexample :
    inspBoth.mmcPack = some (some [{ uid := "net.minecraft", version := "1.20.1" }])
    ∧ inspBoth.instanceCfg = some ["IntendedVersion=1.19.2"]
    ∧ (Go.getMinecraftInfo inspBoth).version = "1.19.2"
    ∧ (TS.getMinecraftInfo inspBoth).version = "1.20.1" := by
  refine ⟨rfl, rfl, by decide, by decide⟩

/-- C7 (amended): in the TypeScript implementation the version field is
the manifest's first net.minecraft component version (when nonempty),
falling back to the instance-config IntendedVersion value, falling back
to the "Unknown" sentinel — the manifest overrides the config as the
claim states.  In the Go implementation the precedence is reversed: the
instance-config file is parsed after the manifest, so its last
IntendedVersion line overrides the manifest's version, which is returned
only when no such line exists.  In both, fields with no positive signal
remain "Unknown", and the inspector is a total function of its inputs
(it never fails the run). -/
theorem claim_C7_amended (inp : InspectInput) :
    ((TS.getMinecraftInfo inp).version
        = (orD (tsMmcVersion inp) (tsCfgSignal inp)).getD "Unknown")
    ∧ ((Go.getMinecraftInfo inp).version
        = (orD (goCfgVersion inp) (goMmcVersion inp)).getD "Unknown")
    ∧ (inp.modNames = none → inp.mmcPack = none →
        (TS.getMinecraftInfo inp).loader = "Unknown"
        ∧ (TS.getMinecraftInfo inp).loaderVersion = "Unknown"
        ∧ (Go.getMinecraftInfo inp).loader = "Unknown"
        ∧ (Go.getMinecraftInfo inp).loaderVersion = "Unknown") := by
  refine ⟨TS.tsVersion_eq inp, Go.goVersion_eq inp, ?_⟩
  intro hm hp
  rcases hcfg : inp.instanceCfg with _ | lines
  · simp [TS.getMinecraftInfo, Go.getMinecraftInfo, hm, hp, hcfg]
  · simp [TS.getMinecraftInfo, Go.getMinecraftInfo, hm, hp, hcfg,
      Go.cfgFold_loader]

/-- C7 witness: the amended claim applied to the two-sidecar input and to
the no-signal input. -/
theorem claim_C7_witness :
    ((TS.getMinecraftInfo inspBoth).version
        = (orD (tsMmcVersion inspBoth) (tsCfgSignal inspBoth)).getD "Unknown"
      ∧ (orD (tsMmcVersion inspBoth) (tsCfgSignal inspBoth)).getD "Unknown"
          = "1.20.1")
    ∧ ((Go.getMinecraftInfo inspNone).loader = "Unknown"
      ∧ (Go.getMinecraftInfo inspNone).loaderVersion = "Unknown") :=
  ⟨⟨(claim_C7_amended inspBoth).1, by decide⟩,
   ⟨((claim_C7_amended inspNone).2.2 rfl rfl).2.2.1,
    ((claim_C7_amended inspNone).2.2 rfl rfl).2.2.2⟩⟩

end Totem

/-! ## Claim C8 -/

namespace Totem

/-- The division loop of the Go formatBytes selects exactly the largest
ladder index whose power of 1024 fits the byte count. -/
theorem goUnitIdx_eq (n : Nat) : goUnitIdx n 4 = ladderIdx n := by
  have e1 : n / 1024 / 1024 = n / 1048576 := by
    rw [Nat.div_div_eq_div_mul]
  have e2 : n / 1048576 / 1024 = n / 1073741824 := by
    rw [Nat.div_div_eq_div_mul]
  have l1 : (1024 ≤ n / 1024) ↔ 1048576 ≤ n := by
    rw [Nat.le_div_iff_mul_le (by norm_num : (0:ℕ) < 1024)]
  have l2 : (1024 ≤ n / 1048576) ↔ 1073741824 ≤ n := by
    rw [Nat.le_div_iff_mul_le (by norm_num : (0:ℕ) < 1048576)]
  have l3 : (1024 ≤ n / 1073741824) ↔ 1099511627776 ≤ n := by
    rw [Nat.le_div_iff_mul_le (by norm_num : (0:ℕ) < 1073741824)]
  show (if 1024 ≤ n then goUnitIdx (n / 1024) 3 + 1 else 0) = ladderIdx n
  by_cases h1 : 1024 ≤ n
  · rw [if_pos h1]
    show (if 1024 ≤ n / 1024 then goUnitIdx (n / 1024 / 1024) 2 + 1 else 0) + 1
        = ladderIdx n
    by_cases h2 : 1048576 ≤ n
    · rw [if_pos (l1.mpr h2), e1]
      show ((if 1024 ≤ n / 1048576 then goUnitIdx (n / 1048576 / 1024) 1 + 1 else 0) + 1)
          + 1 = ladderIdx n
      by_cases h3 : 1073741824 ≤ n
      · rw [if_pos (l2.mpr h3), e2]
        show (((if 1024 ≤ n / 1073741824 then goUnitIdx (n / 1073741824 / 1024) 0 + 1
            else 0) + 1) + 1) + 1 = ladderIdx n
        by_cases h4 : 1099511627776 ≤ n
        · rw [if_pos (l3.mpr h4)]
          simp [ladderIdx, h4, goUnitIdx]
        · rw [if_neg (fun hc => h4 (l3.mp hc))]
          simp [ladderIdx, h3, h4]
      · rw [if_neg (fun hc => h3 (l2.mp hc))]
        have h4 : ¬ 1099511627776 ≤ n := by omega
        simp [ladderIdx, h2, h3, h4]
    · rw [if_neg (fun hc => h2 (l1.mp hc))]
      have h3 : ¬ 1073741824 ≤ n := by omega
      have h4 : ¬ 1099511627776 ≤ n := by omega
      simp [ladderIdx, h1, h2, h3, h4]
  · rw [if_neg h1]
    have h2 : ¬ 1048576 ≤ n := by omega
    have h3 : ¬ 1073741824 ≤ n := by omega
    have h4 : ¬ 1099511627776 ≤ n := by omega
    simp [ladderIdx, h1, h2, h3, h4]

/-- Below 1024 ^ 5, the TypeScript floor-logarithm index (fuel at least
the byte count) agrees with the ladder index; at 1024 ^ 5 and above it
keeps growing past the end of the ladder. -/
theorem tsLogIdx_eq (n fuel : Nat) (hf : n ≤ fuel) (h5 : n < 1125899906842624) :
    tsLogIdx n fuel = ladderIdx n := by
  have l1 : (n / 1024 < 1024) ↔ n < 1048576 := by
    rw [Nat.div_lt_iff_lt_mul (by norm_num : (0:ℕ) < 1024)]
  have l2 : (n / 1048576 < 1024) ↔ n < 1073741824 := by
    rw [Nat.div_lt_iff_lt_mul (by norm_num : (0:ℕ) < 1048576)]
  have l3 : (n / 1073741824 < 1024) ↔ n < 1099511627776 := by
    rw [Nat.div_lt_iff_lt_mul (by norm_num : (0:ℕ) < 1073741824)]
  have l4 : (n / 1099511627776 < 1024) ↔ n < 1125899906842624 := by
    rw [Nat.div_lt_iff_lt_mul (by norm_num : (0:ℕ) < 1099511627776)]
  have e1 : n / 1024 / 1024 = n / 1048576 := by
    rw [Nat.div_div_eq_div_mul]
  have e2 : n / 1048576 / 1024 = n / 1073741824 := by
    rw [Nat.div_div_eq_div_mul]
  have e3 : n / 1073741824 / 1024 = n / 1099511627776 := by
    rw [Nat.div_div_eq_div_mul]
  by_cases h1 : n < 1024
  · have hl : ladderIdx n = 0 := by
      unfold ladderIdx
      split_ifs <;> omega
    have e : tsLogIdx n fuel = 0 := by
      cases fuel with
      | zero => rfl
      | succ f => simp [tsLogIdx, h1]
    rw [e, hl]
  · obtain ⟨f1, rfl⟩ : ∃ f, fuel = f + 1 := ⟨fuel - 1, by omega⟩
    rw [show tsLogIdx n (f1 + 1)
          = if n < 1024 then 0 else tsLogIdx (n / 1024) f1 + 1 from rfl,
        if_neg h1]
    by_cases h2 : n < 1048576
    · have e : tsLogIdx (n / 1024) f1 = 0 := by
        cases f1 with
        | zero => rfl
        | succ g => simp [tsLogIdx, l1.mpr h2]
      have hl : ladderIdx n = 1 := by
        unfold ladderIdx
        split_ifs <;> omega
      rw [e, hl]
    · obtain ⟨f2, rfl⟩ : ∃ f, f1 = f + 1 := ⟨f1 - 1, by omega⟩
      rw [show tsLogIdx (n / 1024) (f2 + 1)
            = if n / 1024 < 1024 then 0 else tsLogIdx (n / 1024 / 1024) f2 + 1 from rfl,
          if_neg (by rw [l1]; omega), e1]
      by_cases h3 : n < 1073741824
      · have e : tsLogIdx (n / 1048576) f2 = 0 := by
          cases f2 with
          | zero => rfl
          | succ g => simp [tsLogIdx, l2.mpr h3]
        have hl : ladderIdx n = 2 := by
          unfold ladderIdx
          split_ifs <;> omega
        rw [e, hl]
      · obtain ⟨f3, rfl⟩ : ∃ f, f2 = f + 1 := ⟨f2 - 1, by omega⟩
        rw [show tsLogIdx (n / 1048576) (f3 + 1)
              = if n / 1048576 < 1024 then 0
                else tsLogIdx (n / 1048576 / 1024) f3 + 1 from rfl,
            if_neg (by rw [l2]; omega), e2]
        by_cases h4 : n < 1099511627776
        · have e : tsLogIdx (n / 1073741824) f3 = 0 := by
            cases f3 with
            | zero => rfl
            | succ g => simp [tsLogIdx, l3.mpr h4]
          have hl : ladderIdx n = 3 := by
            unfold ladderIdx
            split_ifs <;> omega
          rw [e, hl]
        · obtain ⟨f4, rfl⟩ : ∃ f, f3 = f + 1 := ⟨f3 - 1, by omega⟩
          rw [show tsLogIdx (n / 1073741824) (f4 + 1)
                = if n / 1073741824 < 1024 then 0
                  else tsLogIdx (n / 1073741824 / 1024) f4 + 1 from rfl,
              if_neg (by rw [l3]; omega), e3]
          have e : tsLogIdx (n / 1099511627776) f4 = 0 := by
            cases f4 with
            | zero => rfl
            | succ g => simp [tsLogIdx, l4.mpr h5]
          have hl : ladderIdx n = 4 := by
            unfold ladderIdx
            split_ifs <;> omega
          rw [e, hl]

/-- C8 counterexample: the claim says every positive byte count is
rendered in the largest unit of the B..TB ladder in which the value is
at least 1, but at 2 * 1024 ^ 5 bytes the TypeScript formatBytes divides
by the uncapped power 1024 ^ 5 and renders "2.0 TB", where the claimed
ladder rule — and the Go implementation — require the value in TB,
"2048.0 TB". -/
theorem claim_C8_counterexample :
    TS.formatBytes 2251799813685248 = "2.0 TB"
    ∧ ladderIdx 2251799813685248 = 4
    ∧ tenthsString (roundTenthsUp 2251799813685248 (1024 ^ ladderIdx 2251799813685248))
        ++ " " ++ byteUnits.getD (ladderIdx 2251799813685248) "TB" = "2048.0 TB"
    ∧ Go.formatBytes 2251799813685248 = "2048.0 TB" := by
  refine ⟨by decide, by decide, by decide, by decide⟩

/-- C8 (amended): formatBytes returns "0 B" for exactly zero.  The Go
implementation renders every positive byte count with one decimal place
in the largest unit of the B/KB/MB/GB/TB ladder (divisor 1024) in which
the value is at least 1, the ladder capped at TB.  The TypeScript
implementation renders by the same rule for every positive count below
1024 ^ 5, but from 1024 ^ 5 on it divides by uncapped powers of 1024
with only the unit label falling back to TB.  The enumerated examples
hold in both implementations. -/
theorem claim_C8_amended (n m : Nat) (hn : 0 < n) (hm : 0 < m)
    (hts : m < 1125899906842624) :
    (Go.formatBytes n
      = tenthsString (roundTenthsEven n (1024 ^ ladderIdx n)) ++ " "
          ++ byteUnits.getD (ladderIdx n) "TB"
    ∧ 1024 ^ ladderIdx n ≤ n
    ∧ (∀ j, j ≤ 4 → 1024 ^ j ≤ n → j ≤ ladderIdx n))
    ∧ TS.formatBytes m
      = tenthsString (roundTenthsUp m (1024 ^ ladderIdx m)) ++ " "
          ++ byteUnits.getD (ladderIdx m) "TB"
    ∧ (Go.formatBytes 0 = "0 B" ∧ Go.formatBytes 500 = "500.0 B"
    ∧ Go.formatBytes 1024 = "1.0 KB" ∧ Go.formatBytes 1536 = "1.5 KB"
    ∧ Go.formatBytes 1048576 = "1.0 MB" ∧ Go.formatBytes 1073741824 = "1.0 GB"
    ∧ Go.formatBytes 1099511627776 = "1.0 TB")
    ∧ (TS.formatBytes 0 = "0 B" ∧ TS.formatBytes 500 = "500.0 B"
    ∧ TS.formatBytes 1024 = "1.0 KB" ∧ TS.formatBytes 1536 = "1.5 KB"
    ∧ TS.formatBytes 1048576 = "1.0 MB" ∧ TS.formatBytes 1073741824 = "1.0 GB"
    ∧ TS.formatBytes 1099511627776 = "1.0 TB") := by
  refine ⟨⟨?_, ?_, ?_⟩, ?_, ?_, ?_⟩
  · rw [Go.formatBytes, if_neg (by omega), goUnitIdx_eq]
  · unfold ladderIdx
    split_ifs with a b c d <;> norm_num <;> omega
  · intro j hj hpow
    unfold ladderIdx
    split_ifs with a b c d <;> interval_cases j <;> norm_num at hpow ⊢ <;> omega
  · rw [TS.formatBytes, if_neg (by omega), tsLogIdx_eq m m le_rfl hts]
  · refine ⟨rfl, by decide, by decide, by decide, by decide, by decide, by decide⟩
  · refine ⟨rfl, by decide, by decide, by decide, by decide, by decide, by decide⟩

/-- C8 witness: the general renderings applied at 1536 bytes in both
implementations. -/
theorem claim_C8_witness :
    Go.formatBytes 1536
      = tenthsString (roundTenthsEven 1536 (1024 ^ ladderIdx 1536)) ++ " "
          ++ byteUnits.getD (ladderIdx 1536) "TB"
    ∧ TS.formatBytes 1536
      = tenthsString (roundTenthsUp 1536 (1024 ^ ladderIdx 1536)) ++ " "
          ++ byteUnits.getD (ladderIdx 1536) "TB"
    ∧ Go.formatBytes 1536 = "1.5 KB" ∧ TS.formatBytes 1536 = "1.5 KB" :=
  ⟨(claim_C8_amended 1536 1536 (by decide) (by decide) (by decide)).1.1,
   (claim_C8_amended 1536 1536 (by decide) (by decide) (by decide)).2.1,
   by decide, by decide⟩

end Totem

/-! ## Claim C9 -/

namespace Totem

mutual

theorem copyDir_spec : ∀ t : FsNode, (copyDir t).1 = t ∧ (copyDir t).2 = countFiles t
  | .file c => ⟨rfl, rfl⟩
  | .dir es => by
      have h := copyEntries_spec es
      simp [copyDir, countFiles, h.1, h.2]

theorem copyEntries_spec : ∀ es : List (String × FsNode),
    (copyEntries es).1 = es ∧ (copyEntries es).2 = countFilesEntries es
  | [] => ⟨rfl, rfl⟩
  | (n, t) :: rest => by
      have h1 := copyDir_spec t
      have h2 := copyEntries_spec rest
      simp [copyEntries, countFilesEntries, h1.1, h1.2, h2.1, h2.2]

end

mutual

theorem countFiles_paths : ∀ t : FsNode, countFiles t = (filePaths t).length
  | .file _ => rfl
  | .dir es => by
      have h := countFilesEntries_paths es
      simp [countFiles, filePaths, h]

theorem countFilesEntries_paths : ∀ es : List (String × FsNode),
    countFilesEntries es = (filePathsEntries es).length
  | [] => rfl
  | (n, t) :: rest => by
      have h1 := countFiles_paths t
      have h2 := countFilesEntries_paths rest
      simp [countFilesEntries, filePathsEntries, h1, h2]

end

/-- C9: the recursive copy mirrors the source tree exactly — the
destination equals the source byte-for-byte at the same relative paths —
and returns the number of files at any nesting depth; directories do not
count. -/
theorem claim_C9 (t : FsNode) :
    (copyDir t).1 = t
    ∧ (copyDir t).2 = countFiles t
    ∧ filePaths (copyDir t).1 = filePaths t
    ∧ countFiles t = (filePaths t).length :=
  ⟨(copyDir_spec t).1, (copyDir_spec t).2,
   by rw [(copyDir_spec t).1], countFiles_paths t⟩

end Totem

/-! ## Claim C10 -/

namespace Totem

/-- C10: for every duration in the interval from 119.5 inclusive to 120
exclusive, the TypeScript formatDuration renders "1m 60s" — the seconds
component is rounded up to 60 while the floored minutes component stays
1, so the seconds do not carry over. -/
theorem claim_C10 (d : ℚ) (h1 : (1195 : ℚ) / 10 ≤ d) (h2 : d < 120) :
    TS.formatDuration d = "1m 60s" := by
  have h60 : ¬ d < 60 := by
    intro h
    linarith
  have hfl : ⌊d / 60⌋ = (1 : ℤ) := by
    rw [Int.floor_eq_iff]
    constructor
    · rw [le_div_iff₀ (by norm_num : (0:ℚ) < 60)]
      push_cast
      linarith
    · rw [div_lt_iff₀ (by norm_num : (0:ℚ) < 60)]
      push_cast
      linarith
  rw [TS.formatDuration, if_neg h60, hfl]
  have hsec : jsRound (d - 60 * ((1 : ℤ) : ℚ)) = 60 := by
    rw [jsRound, Int.floor_eq_iff]
    constructor
    · push_cast
      linarith
    · push_cast
      linarith
  rw [hsec]
  rfl

/-- C10 witness: the boundary value 119.5 renders as "1m 60s". -/
theorem claim_C10_witness :
    (1195 : ℚ) / 10 ≤ (239 : ℚ) / 2
    ∧ TS.formatDuration ((239 : ℚ) / 2) = "1m 60s" :=
  ⟨by norm_num, claim_C10 ((239 : ℚ) / 2) (by norm_num) (by norm_num)⟩

end Totem
